import Mathlib

/-!
Verification of the schedule conflict-resolution and execution engine of the
interactive scraper (`interactive_scraper.py`).

Modelling conventions (shallow embedding):

* A Python `datetime` value is modelled as an integer number of seconds.
  `datetime.strptime(s, "%H:%M")` yields the date 1900-01-01, which we take as
  second `0` of the time axis, so a parsed `"HH:MM"` becomes `H*3600 + M*60`.
  `datetime.now()` is passed around as an explicit `now : Int` parameter on the
  same axis.  `timedelta(minutes=k)` is `k * 60`.  Sub-second precision
  (microseconds) is ignored; none of the verified properties depends on it.
* Python `int` fields are modelled as `Int` (Python integers are unbounded and
  the dataclass performs no range validation).
* The process-wide dict `self.schedules` is modelled as an association list
  `Store` in insertion order (Python dicts iterate in insertion order).
* Strings are Lean `String`s; the string-manipulation builtins used by the code
  (`str.replace`, `str.endswith`, `str.strip`, `str.lower`, `str.split`, `int`)
  are modelled on `List Char` below, restricted to the ASCII behaviour the
  program exercises.
* The scanning loops of the Safe-Time Suggester advance their cursor by at
  least 30 minutes per iteration and stop at a fixed bound, so they are
  written with an explicit iteration budget (`fuel`) that exceeds the
  possible number of iterations: `gap / 1800 + 2` where `gap` bounds the
  distance the cursor can travel.  The exhausted-fuel branch is unreachable.
-/

/-! ## Character / string builtins -/

/-- Model of `str.strip()` (and of the whitespace stripping done by `int()`):
drop whitespace characters from both ends. -/
def stripL (l : List Char) : List Char :=
  ((l.dropWhile Char.isWhitespace).reverse.dropWhile Char.isWhitespace).reverse

/-- Model of `str.split()[0]` guarded by the surrounding `try`: the first
maximal run of non-whitespace characters, or `none` when the string has no
token (Python raises `IndexError`, caught by the bare `except`). -/
def firstToken (l : List Char) : Option (List Char) :=
  let t := l.dropWhile Char.isWhitespace
  if t = [] then none else some (t.takeWhile (fun c => !c.isWhitespace))

/-- Model of `str.endswith(suffix)`. -/
def endsWithL (l suf : List Char) : Bool :=
  suf.reverse.isPrefixOf l.reverse

/-- Model of `str.replace(pat, rep)`: replace every (leftmost, non-overlapping)
occurrence of `pat` by `rep`.  All patterns used by the program are non-empty;
for an empty pattern this model is the identity. -/
def replaceAll (pat rep : List Char) : List Char → List Char
  | [] => []
  | a :: s =>
    if h : pat ≠ [] ∧ pat.isPrefixOf (a :: s) then
      rep ++ replaceAll pat rep ((a :: s).drop pat.length)
    else
      a :: replaceAll pat rep s
termination_by l => l.length
decreasing_by
  · have hne : pat.length ≠ 0 := by
      intro hz
      exact h.1 (List.length_eq_zero.mp hz)
    simp [List.length_drop]
    omega
  · simp

/-- Digit run (with Python's single-underscore-between-digits rule) as read by
`int()`.  Returns the accumulated value. -/
def intDigitsGo (acc : Nat) : List Char → Option Nat
  | [] => some acc
  | c :: cs =>
    if c.isDigit then intDigitsGo (acc * 10 + (c.toNat - 48)) cs
    else if c = '_' then
      match cs with
      | c2 :: cs2 =>
        if c2.isDigit then intDigitsGo (acc * 10 + (c2.toNat - 48)) cs2 else none
      | [] => none
    else none

/-- Nonempty digit run as read by `int()`. -/
def intDigits : List Char → Option Nat
  | [] => none
  | c :: cs => if c.isDigit then intDigitsGo (c.toNat - 48) cs else none

/-- Model of Python's `int(s)` on the ASCII inputs the program exercises:
optional surrounding whitespace, optional sign, then a nonempty digit run.
`none` models the `ValueError` caught by the surrounding `except`. -/
def pyInt (l : List Char) : Option Int :=
  match stripL l with
  | [] => none
  | c :: rest =>
    if c = '+' then (intDigits rest).map Int.ofNat
    else if c = '-' then (intDigits rest).map (fun n => -(n : Int))
    else (intDigits (c :: rest)).map Int.ofNat

/-- Value of a digit string (most significant first). -/
def digitsToNat (l : List Char) : Nat :=
  l.foldl (fun acc c => acc * 10 + (c.toNat - 48)) 0

/-! ## Time parsing and formatting -/

/-- Digits of a two-digit zero-padded field, as produced by `strftime`. -/
def digitChar (n : Nat) : Char := Char.ofNat (48 + n)

/-- Two-digit zero-padded decimal rendering (`%H` and `%M` zero-pad to width 2
for the values `0 ≤ n < 60` that arise). -/
def pad2 (n : Nat) : String :=
  String.mk [digitChar (n / 10), digitChar (n % 10)]

/-- `strftime("%H:%M")` on an hour/minute pair. -/
def strftimeHM (h m : Nat) : String := pad2 h ++ ":" ++ pad2 m

/-- Hour-of-day of a datetime (seconds on our axis); Python semantics of
`dt.hour`, valid for negative datetimes as well (floored modulus). -/
def hourOf (t : Int) : Nat := ((t.emod 86400) / 3600).toNat

/-- Minute-of-hour of a datetime, Python `dt.minute`. -/
def minuteOf (t : Int) : Nat := ((t.emod 3600) / 60).toNat

/-- `dt.strftime("%H:%M")` for a datetime in seconds. -/
def strftimeS (t : Int) : String := strftimeHM (hourOf t) (minuteOf t)

/-- `dt.replace(minute=m, second=0)` (microseconds ignored). -/
def replaceMinSec (t : Int) (m : Nat) : Int := t - t.emod 3600 + (m : Int) * 60

/-- `dt.replace(minute=0, second=0)`. -/
def replaceMin0 (t : Int) : Int := t - t.emod 3600

/-- Midnight of the datetime's day. -/
def dayStart (t : Int) : Int := t - t.emod 86400

/-- Model of `datetime.strptime(s, "%H:%M")`: the `_strptime` regex is
`(?P<H>\d{1,2}):(?P<M>\d{1,2})` anchored on the whole string, and the
`datetime` constructor then enforces `H ≤ 23`, `M ≤ 59`.  `none` is the
`ValueError` path. -/
def parseHM (s : String) : Option (Nat × Nat) :=
  match s.data.splitOn ':' with
  | [a, b] =>
    if 1 ≤ a.length && a.length ≤ 2 && a.all Char.isDigit &&
       1 ≤ b.length && b.length ≤ 2 && b.all Char.isDigit then
      let h := digitsToNat a
      let m := digitsToNat b
      if h ≤ 23 && m ≤ 59 then some (h, m) else none
    else none
  | _ => none

/-- `strptime("%H:%M")` as a datetime in seconds on our axis. -/
def parseStartTime (s : String) : Option Int :=
  (parseHM s).map (fun p => (p.1 : Int) * 3600 + (p.2 : Int) * 60)

/-- `validate_time_format(time_str)`: true iff `strptime(_, "%H:%M")` does not
raise. -/
def validate_time_format (time_str : String) : Bool :=
  (parseHM time_str).isSome

/-! ## Calendar arithmetic for `strptime("%Y-%m-%d %H:%M:%S")` -/

/-- Gregorian leap-year rule. -/
def isLeap (y : Nat) : Bool := y % 4 == 0 && (y % 100 != 0 || y % 400 == 0)

/-- Number of days in a month. -/
def daysInMonth (y m : Nat) : Nat :=
  if m = 2 then (if isLeap y then 29 else 28)
  else if m = 4 ∨ m = 6 ∨ m = 9 ∨ m = 11 then 30
  else 31

/-- Days before the first of month `m` in year `y`. -/
def daysBeforeMonth (y m : Nat) : Nat :=
  (match m with
   | 1 => 0 | 2 => 31 | 3 => 59 | 4 => 90 | 5 => 120 | 6 => 151
   | 7 => 181 | 8 => 212 | 9 => 243 | 10 => 273 | 11 => 304 | _ => 334) +
  (if 3 ≤ m ∧ isLeap y then 1 else 0)

/-- Days from 0001-01-01 to the given civil date (proleptic Gregorian, as used
by Python `datetime.toordinal` minus one). -/
def daysFromCivil (y m d : Nat) : Nat :=
  365 * (y - 1) + (y - 1) / 4 - (y - 1) / 100 + (y - 1) / 400 +
    daysBeforeMonth y m + (d - 1)

/-- Seconds on our axis (epoch 1900-01-01 00:00:00) of a civil datetime.
`daysFromCivil 1900 1 1 = 693595`. -/
def toEpoch1900 (y mo d h mi s : Nat) : Int :=
  ((daysFromCivil y mo d : Int) - 693595) * 86400 +
    (h : Int) * 3600 + (mi : Int) * 60 + (s : Int)

/-- A 1-2 digit numeric `strptime` field. -/
def field12 (l : List Char) : Option Nat :=
  if 1 ≤ l.length && l.length ≤ 2 && l.all Char.isDigit then some (digitsToNat l)
  else none

/-- Model of `datetime.strptime(s, "%Y-%m-%d %H:%M:%S")`: `%Y` is exactly four
digits, the other fields 1-2 digits; the `datetime` constructor validates the
ranges (month 1-12, day within the month, hour ≤ 23, minute/second ≤ 59,
year ≥ 1). -/
def parseYmdHMS (str : String) : Option Int :=
  match str.data.splitOn ' ' with
  | [datePart, timePart] =>
    match datePart.splitOn '-', timePart.splitOn ':' with
    | [ys, ms, ds], [hs, mis, ss] =>
      if ys.length = 4 && ys.all Char.isDigit then
        match field12 ms, field12 ds, field12 hs, field12 mis, field12 ss with
        | some mo, some d, some h, some mi, some s =>
          let y := digitsToNat ys
          if 1 ≤ y ∧ 1 ≤ mo ∧ mo ≤ 12 ∧ 1 ≤ d ∧ d ≤ daysInMonth y mo ∧
             h ≤ 23 ∧ mi ≤ 59 ∧ s ≤ 59 then
            some (toEpoch1900 y mo d h mi s)
          else none
        | _, _, _, _, _ => none
      else none
    | _, _ => none
  | _ => none

/-! ## The `Schedule` dataclass and the schedule store -/

/-- The `Schedule` dataclass of `interactive_scraper.py` (field for field). -/
structure Schedule where
  id : String
  name : String
  search_terms : List String
  start_time : String
  duration_minutes : Int
  limit_per_run : Int
  skip_duplicates : Bool
  is_recurring : Bool
  is_active : Bool
  last_run : String := ""
  total_runs : Int := 0
  estimated_duration_minutes : Int := 15
  auto_sequence : Bool := false
  currently_running : Bool := false
deriving Repr, DecidableEq

/-- `self.schedules`: a dict from id to schedule, in insertion order. -/
abbrev Store := List (String × Schedule)

/-- Dict read `self.schedules.get(k)`. -/
def lookupStore (st : Store) (k : String) : Option Schedule :=
  (st.find? (fun p => p.1 == k)).map (fun p => p.2)

/-- Dict write `d[k] = v`: overwrite in place if the key is present (Python
keeps the original position), append otherwise. -/
def dictInsert (st : Store) (k : String) (v : Schedule) : Store :=
  if st.any (fun p => p.1 == k) then
    st.map (fun p => if p.1 == k then (k, v) else p)
  else st ++ [(k, v)]

/-- Propagating an in-place mutation of a schedule *object* to the dict: every
entry holding that object (identified by its key) now shows the new value; a
mutation of an object that is not in the dict leaves the dict unchanged. -/
def dictUpdate (st : Store) (k : String) (v : Schedule) : Store :=
  st.map (fun p => if p.1 == k then (k, v) else p)

/-- `load_schedules` input: the file may be missing (`os.path.exists` false:
`self.schedules` keeps its previous value), unreadable/corrupt (the `except`
arm resets the store to empty), or a parsed list of records. -/
inductive LoadInput where
  | missing
  | corrupt
  | records (rs : List Schedule)

/-- `load_schedules()`: rebuild the dict from the persisted record list, keyed
by each record's `id`, via `Schedule(**schedule_data)` — the records are taken
verbatim, no field is rewritten. -/
def load_schedules (prev : Store) : LoadInput → Store
  | LoadInput.missing => prev
  | LoadInput.corrupt => []
  | LoadInput.records rs => rs.foldl (fun st r => dictInsert st r.id r) []

/-! ## Conflict detection (`check_schedule_conflicts` and friends) -/

/-- One entry of the human-readable conflict list.  The payload carries the
data interpolated into the Python message strings. -/
inductive Conflict where
  | direct (name time : String)
  | overlap (name : String)
deriving Repr, DecidableEq

/-- `check_execution_overlap(schedule1, schedule2)`: half-open execution-window
overlap test; any `strptime` failure is swallowed (`except: pass`) and reported
as no overlap. -/
def check_execution_overlap (s1 s2 : Schedule) : Option Conflict :=
  match parseStartTime s1.start_time, parseStartTime s2.start_time with
  | some t1, some t2 =>
    let e1 := t1 + s1.estimated_duration_minutes * 60
    let e2 := t2 + s2.estimated_duration_minutes * 60
    if (t1 ≤ t2 ∧ t2 < e1) ∨ (t2 ≤ t1 ∧ t1 < e2) then
      some (Conflict.overlap s1.name)
    else none
  | _, _ => none

/-- `check_schedule_conflicts(new_schedule)`: iterate the store in insertion
order, skip inactive schedules, emit a direct start-time conflict and/or a
window overlap for each remaining schedule.  Note: the loop has no
candidate-identity exclusion. -/
def check_schedule_conflicts (store : Store) (new_schedule : Schedule) : List Conflict :=
  store.flatMap (fun p =>
    let existing := p.2
    if existing.is_active = false then []
    else
      (if existing.start_time == new_schedule.start_time then
        [Conflict.direct existing.name existing.start_time]
      else []) ++
      (match check_execution_overlap existing new_schedule with
       | some c => [c]
       | none => []))

/-- Entries of the list built by `check_schedule_conflicts_between`. -/
inductive ConflictB where
  | direct
  | overlap
deriving Repr, DecidableEq

/-- `check_schedule_conflicts_between(schedule1, schedule2)` (used by the
suggester to build the conflicting set). -/
def check_schedule_conflicts_between (s1 s2 : Schedule) : List ConflictB :=
  (if s1.start_time == s2.start_time then [ConflictB.direct] else []) ++
  (match parseStartTime s1.start_time, parseStartTime s2.start_time with
   | some t1, some t2 =>
     let e1 := t1 + s1.estimated_duration_minutes * 60
     let e2 := t2 + s2.estimated_duration_minutes * 60
     if (t1 ≤ t2 ∧ t2 < e1) ∨ (t2 ≤ t1 ∧ t1 < e2) then [ConflictB.overlap] else []
   | _, _ => [])

/-! ## Sequencer (`calculate_sequential_time`) -/

/-- One iteration of `calculate_sequential_time`'s loop body: skip inactive
schedules, skip `strptime` failures (`except: continue`), otherwise keep the
later of the accumulated end and this schedule's `start + estimated_duration`
end. -/
def latestEndStep (acc : Option Int) (p : String × Schedule) : Option Int :=
  if p.2.is_active = false then acc
  else
    match parseStartTime p.2.start_time with
    | none => acc
    | some t =>
      let e := t + p.2.estimated_duration_minutes * 60
      match acc with
      | none => some e
      | some le => if e > le then some e else some le

/-- The accumulator scan of `calculate_sequential_time`'s loop. -/
def latestEndAux (acc : Option Int) : Store → Option Int
  | [] => acc
  | p :: rest => latestEndAux (latestEndStep acc p) rest

/-- The `latest_end_time` value computed by `calculate_sequential_time`. -/
def latestEndTime (store : Store) : Option Int := latestEndAux none store

/-- `calculate_sequential_time(new_schedule)`: 10-minute buffer after the
latest end; if the result's hour is ≥ 23, replace `hour=8, minute=0` and move
to the next day; render with `strftime("%H:%M")`.  (The candidate schedule
argument of the Python method is unused by its body.) -/
def calculate_sequential_time (store : Store) : Option String :=
  match latestEndTime store with
  | none => none
  | some le =>
    let seq := le + 600
    if 23 ≤ hourOf seq then
      some (strftimeS (dayStart seq + 8 * 3600 + seq.emod 60 + 86400))
    else some (strftimeS seq)

/-! ## Duration validation (`validate_duration`) -/

/-- The branch chain of `validate_duration` on the lower-cased, stripped
input: dispatch on the unit suffix; each branch takes `split()[0]` (`none`
models the caught `IndexError`), strips the unit letters with chained
`str.replace` calls and converts with `int`, any failure yielding `None`. -/
def validateCore (l : List Char) : Option Int :=
  if endsWithL l "m".data || endsWithL l "min".data ||
     endsWithL l "minute".data || endsWithL l "minutes".data then
    (firstToken l).bind (fun tok =>
      pyInt (replaceAll "s".data []
        (replaceAll "ute".data [] (replaceAll "in".data [] (replaceAll "m".data [] tok)))))
  else if endsWithL l "h".data || endsWithL l "hour".data || endsWithL l "hours".data then
    (firstToken l).bind (fun tok =>
      (pyInt (replaceAll "s".data []
        (replaceAll "our".data [] (replaceAll "h".data [] tok)))).map (fun v => v * 60))
  else if endsWithL l "d".data || endsWithL l "day".data || endsWithL l "days".data then
    (firstToken l).bind (fun tok =>
      (pyInt (replaceAll "s".data []
        (replaceAll "ay".data [] (replaceAll "d".data [] tok)))).map (fun v => v * 24 * 60))
  else pyInt l

/-- `validate_duration(duration_str)`: `duration_str.lower().strip()` followed
by the suffix dispatch. -/
def validate_duration (duration_str : String) : Option Int :=
  validateCore (stripL (duration_str.data.map Char.toLower))

/-! ## Job Executor (`execute_schedule`) -/

/-- Successful term count of one run: `outs` are the per-term Job Runner
outcomes (`returncode == 0`); `fault = some k` models an exception escaping
the term loop after `k` terms were processed (individual runner exceptions are
caught inside the loop and count as failures). -/
def countSuccess (outs : List Bool) (fault : Option Nat) : Nat :=
  match fault with
  | none => outs.count true
  | some k => (outs.take k).count true

/-- `execute_schedule(schedule)`: mark running and persist; run the terms; in
the `finally` block — reached on normal completion and when an exception
escapes the loop alike — clear `currently_running`, stamp `last_run` with the
completion time, increment `total_runs`, clear `auto_sequence`, and persist
again.  Result: the final schedule object, the final store, the list of store
snapshots passed to `save_schedules` in order, and the success count. -/
def execute_schedule (store : Store) (sid : String) (sched : Schedule)
    (outs : List Bool) (fault : Option Nat) (completion : String) :
    Schedule × Store × List Store × Nat :=
  let s1 := { sched with currently_running := true }
  let store1 := dictUpdate store sid s1
  let succ := countSuccess outs fault
  let s2 := { s1 with
    currently_running := false, last_run := completion
    total_runs := s1.total_runs + 1, auto_sequence := false }
  let store2 := dictUpdate store1 sid s2
  (s2, store2, [store1, store2], succ)

/-! ## Scheduler loop (`start_scheduler`) -/

/-- The first-run due condition of the scheduler loop (line
`if schedule.total_runs == 0 and current_time == schedule.start_time`), where
`current_time` is `datetime.now().strftime("%H:%M")`. -/
def firstRunDue (current_time : String) (s : Schedule) : Bool :=
  s.total_runs == 0 && current_time == s.start_time

/-- The `should_run` computation of one loop iteration: first-run due check,
else the recurring check `now >= last_run + duration_minutes` (with the
`strptime` failure swallowed).  `schedule.last_run` is truthy iff nonempty. -/
def shouldRun (now : Int) (s : Schedule) : Bool :=
  if firstRunDue (strftimeS now) s then true
  else if s.is_recurring && !(s.last_run == "") then
    match parseYmdHMS s.last_run with
    | some lt => decide (lt + s.duration_minutes * 60 ≤ now)
    | none => false
  else false

/-- `schedules_would_conflict_now(schedule1, schedule2)`: an unconditional
conflict when the second schedule is currently running, otherwise the window
overlap test (`strptime` failures swallowed). -/
def schedules_would_conflict_now (s1 s2 : Schedule) : Bool :=
  if s2.currently_running then true
  else
    match parseStartTime s1.start_time, parseStartTime s2.start_time with
    | some t1, some t2 =>
      let e1 := t1 + s1.estimated_duration_minutes * 60
      let e2 := t2 + s2.estimated_duration_minutes * 60
      decide ((t1 ≤ t2 ∧ t2 < e1) ∨ (t2 ≤ t1 ∧ t1 < e2))
    | _, _ => false

/-- Outcome of one scheduler-loop iteration for one schedule. -/
inductive Decision where
  | skipRunning
  | notDue
  | waitAutoSequence
  | queued
  | dispatch
deriving Repr, DecidableEq

/-- The decision logic of one iteration of the scheduler loop's `for` body:
skip a schedule that is already running; not due → nothing; due with
`auto_sequence` set while the running snapshot is nonempty → wait; due with a
conflict against a running schedule → queued; otherwise dispatch to
`execute_schedule`. -/
def decide_schedule (now : Int) (running_schedules : List Schedule) (s : Schedule) : Decision :=
  if s.currently_running then Decision.skipRunning
  else if shouldRun now s = false then Decision.notDue
  else if s.auto_sequence && !running_schedules.isEmpty then Decision.waitAutoSequence
  else if running_schedules.any (fun rs => schedules_would_conflict_now s rs) then Decision.queued
  else Decision.dispatch

/-- One tick of the scheduler loop: snapshot the running schedules
(`running_schedules = [s for s in active_schedules if s.currently_running]`),
then decide each active schedule in order. -/
def scheduler_tick (now : Int) (active_schedules : List Schedule) :
    List (Schedule × Decision) :=
  let running_schedules := active_schedules.filter (fun s => s.currently_running)
  active_schedules.map (fun s => (s, decide_schedule now running_schedules s))

/-! ## Safe-Time Suggester -/

/-- The synthetic probe schedule built by `is_time_slot_safe`. -/
def mkProbe (new_schedule : Schedule) (test_time : String) : Schedule :=
  { id := "temp", name := "temp", search_terms := new_schedule.search_terms,
    start_time := test_time, duration_minutes := new_schedule.duration_minutes,
    limit_per_run := new_schedule.limit_per_run,
    skip_duplicates := new_schedule.skip_duplicates,
    is_recurring := new_schedule.is_recurring, is_active := true,
    last_run := "", total_runs := 0,
    estimated_duration_minutes := new_schedule.estimated_duration_minutes,
    auto_sequence := false, currently_running := false }

/-- `is_time_slot_safe(test_time, new_schedule)`: probe the conflict detector
with a synthetic schedule at the tested time. -/
def is_time_slot_safe (store : Store) (test_time : String) (new_schedule : Schedule) : Bool :=
  (check_schedule_conflicts store (mkProbe new_schedule test_time)).length == 0

/-- Append a candidate time string iff it passes `is_time_slot_safe` (the
shared guard of all three slot generators). -/
def appendIfSafe (store : Store) (new_schedule : Schedule)
    (acc : List String) (ts : String) : List String :=
  if is_time_slot_safe store ts new_schedule then acc ++ [ts] else acc

/-- The earliest parseable start among the conflicting schedules
(`except: continue` skips unparseable ones). -/
def earliestStart (conflicting : List Schedule) : Option Int :=
  conflicting.foldl (fun acc cs =>
    match parseStartTime cs.start_time with
    | none => acc
    | some t =>
      match acc with
      | none => some t
      | some e => if t < e then some t else some e) none

/-- The latest parseable end (`start + estimated_duration`) among the
conflicting schedules. -/
def latestConflictEnd (conflicting : List Schedule) : Option Int :=
  conflicting.foldl (fun acc cs =>
    match parseStartTime cs.start_time with
    | none => acc
    | some t =>
      let e := t + cs.estimated_duration_minutes * 60
      match acc with
      | none => some e
      | some le => if e > le then some e else some le) none

/-- The scanning loop of `find_slots_before_conflicts`: round the cursor to a
half-hour mark (the ≥ 45 branch first advances the cursor a full hour), test
the slot, advance 30 minutes; stop past `latest_start` or at 4 slots.  `fuel`
bounds the iterations (see the header note). -/
def beforeGo (store : Store) (new_schedule : Schedule) :
    Nat → Int → Int → List String → List String
  | 0, _, _, acc => acc
  | f + 1, latest_start, c, acc =>
    if c ≤ latest_start ∧ acc.length < 4 then
      if minuteOf c < 15 then
        beforeGo store new_schedule f latest_start (c + 1800)
          (appendIfSafe store new_schedule acc (strftimeS (replaceMinSec c 0)))
      else if minuteOf c < 45 then
        beforeGo store new_schedule f latest_start (c + 1800)
          (appendIfSafe store new_schedule acc (strftimeS (replaceMinSec c 30)))
      else
        beforeGo store new_schedule f latest_start (c + 3600 + 1800)
          (appendIfSafe store new_schedule acc (strftimeS (replaceMinSec (c + 3600) 0)))
    else acc

/-- `find_slots_before_conflicts(new_schedule, conflicting_schedules,
current_time)`: compute the latest start that still finishes (plus a 10-minute
buffer) before the earliest conflict; if that is later than now + 5 minutes,
scan 30-minute slots from `max(now + 5min, now.replace(minute=0, second=0))`. -/
def find_slots_before_conflicts (store : Store) (new_schedule : Schedule)
    (conflicting : List Schedule) (now : Int) : List String :=
  if conflicting.isEmpty then []
  else
    match earliestStart conflicting with
    | none => []
    | some earliest_conflict =>
      let latest_start :=
        earliest_conflict - (new_schedule.estimated_duration_minutes + 10) * 60
      let current_plus_buffer := now + 300
      if latest_start > current_plus_buffer then
        let start_checking := max current_plus_buffer (replaceMin0 now)
        beforeGo store new_schedule
          ((latest_start + 3600 - start_checking).toNat / 1800 + 2)
          latest_start start_checking []
      else []

/-- The scanning loop of `find_slots_after_conflicts`; the ≥ 45 branch
advances one hour and `continue`s without testing a slot. -/
def afterGo (store : Store) (new_schedule : Schedule) :
    Nat → Int → Int → List String → List String
  | 0, _, _, acc => acc
  | f + 1, end_of_day, c, acc =>
    if c ≤ end_of_day ∧ acc.length < 4 then
      if minuteOf c < 15 then
        afterGo store new_schedule f end_of_day (c + 1800)
          (appendIfSafe store new_schedule acc (strftimeS (replaceMinSec c 0)))
      else if minuteOf c < 45 then
        afterGo store new_schedule f end_of_day (c + 1800)
          (appendIfSafe store new_schedule acc (strftimeS (replaceMinSec c 30)))
      else
        afterGo store new_schedule f end_of_day (c + 3600) acc
    else acc

/-- `find_slots_after_conflicts(new_schedule, conflicting_schedules)`: scan
30-minute slots from the latest conflicting end plus a 10-minute buffer,
up to `datetime.now().replace(hour=22, minute=0, second=0)`. -/
def find_slots_after_conflicts (store : Store) (new_schedule : Schedule)
    (conflicting : List Schedule) (now : Int) : List String :=
  if conflicting.isEmpty then []
  else
    match latestConflictEnd conflicting with
    | none => []
    | some latest_end =>
      let earliest_after := latest_end + 600
      let end_of_day := dayStart now + 22 * 3600
      afterGo store new_schedule
        ((end_of_day + 3600 - earliest_after).toNat / 1800 + 2)
        end_of_day earliest_after []

/-- `find_fallback_slots(new_schedule, current_time)`: offsets from now
(+1h, +2h, +3h, and −1h after 08:00 / +4h up to 07:59), clipped to 06:00-22:00
hours, rounded to half-hour marks, each verified safe. -/
def find_fallback_slots (store : Store) (new_schedule : Schedule) (now : Int) :
    List String :=
  let base_times := [now + 3600, now + 2 * 3600, now + 3 * 3600,
    if 7 < hourOf now then now - 3600 else now + 4 * 3600]
  base_times.foldl (fun acc b =>
    if 6 ≤ hourOf b ∧ hourOf b ≤ 22 then
      appendIfSafe store new_schedule acc
        (strftimeS (replaceMinSec b (if minuteOf b < 30 then 0 else 30)))
    else acc) []

/-- `list(dict.fromkeys(xs))`: drop duplicates keeping the first occurrence of
each string, preserving order. -/
def pyDedupGo (seen : List String) : List String → List String
  | [] => []
  | x :: xs => if x ∈ seen then pyDedupGo seen xs else x :: pyDedupGo (x :: seen) xs

/-- `list(dict.fromkeys(xs))`. -/
def pyDedup (l : List String) : List String := pyDedupGo [] l

/-- The sort key `time_distance` of `sort_by_time_proximity`: minutes from the
current time, with a 30-minute penalty for times not strictly in the future
and `9999` for unparseable strings. -/
def timeDistance (current : Int) (ts : String) : Int :=
  match parseStartTime ts with
  | some t => if t > current then (t - current) / 60 else (current - t) / 60 + 30
  | none => 9999

/-- Stable insertion of `x` after all earlier elements with key ≤ its own. -/
def insertByKey (key : String → Int) (x : String) : List String → List String
  | [] => [x]
  | y :: ys => if key y ≤ key x then y :: insertByKey key x ys else x :: y :: ys

/-- A stable ascending sort by key.  Python's `sorted` is a stable sort, and
every stable sort by the same key computes the same list, so this insertion
sort is extensionally the behaviour of `sorted(xs, key=...)`. -/
def stableSortByKey (key : String → Int) (l : List String) : List String :=
  l.foldl (fun acc x => insertByKey key x acc) []

/-- `sort_by_time_proximity(time_list, current_time_str)`; if the current time
fails to parse the list is returned unchanged. -/
def sort_by_time_proximity (time_list : List String) (current_time_str : String) :
    List String :=
  match parseStartTime current_time_str with
  | none => time_list
  | some c => stableSortByKey (timeDistance c) time_list

/-- `get_safe_time_suggestions(new_schedule)`: collect the conflicting active
schedules, gather before-slots, after-slots and (when fewer than 3 were found)
fallback slots, deduplicate preserving first-seen order, sort by proximity to
now, and return the first 8. -/
def get_safe_time_suggestions (store : Store) (new_schedule : Schedule) (now : Int) :
    List String :=
  let current_hour_minute := strftimeS now
  let conflicting := (store.map Prod.snd).filter (fun ex =>
    ex.is_active && !(check_schedule_conflicts_between new_schedule ex).isEmpty)
  let safe1 := find_slots_before_conflicts store new_schedule conflicting now
  let safe2 := safe1 ++ find_slots_after_conflicts store new_schedule conflicting now
  let safe3 :=
    if safe2.length < 3 then safe2 ++ find_fallback_slots store new_schedule now
    else safe2
  let safe4 := pyDedup safe3
  let safe5 := sort_by_time_proximity safe4 current_hour_minute
  safe5.take 8

/-! ## Concrete data used by witnesses and counterexamples -/

/-- Base schedule used by concrete witnesses. -/
def baseSched : Schedule :=
  { id := "s1", name := "Morning run", search_terms := ["cafes"],
    start_time := "09:00", duration_minutes := 0, limit_per_run := 100,
    skip_duplicates := true, is_recurring := false, is_active := true,
    last_run := "", total_runs := 0, estimated_duration_minutes := 30,
    auto_sequence := false, currently_running := false }

/-- A persisted record with `currently_running = true` (as left behind by a
crash mid-execution). -/
def cexRunning : Schedule := { baseSched with id := "r1", currently_running := true }

/-- A due schedule with `auto_sequence` set. -/
def autoSeqSched : Schedule :=
  { baseSched with
    id := "w1", name := "Waiter", start_time := "10:00", auto_sequence := true }

/-- A schedule that is currently running. -/
def runningSched : Schedule :=
  { baseSched with id := "r2", name := "Runner", currently_running := true }

/-- A fresh candidate colliding with `baseSched` at 09:00. -/
def newSched : Schedule := { baseSched with id := "n1", name := "Newcomer" }

/-! # Theorems -/

/-! ## C7: touching windows do not overlap -/

/-- C7: for schedules `A` and `B` with parseable start times, and `A`'s
estimated duration at least 1 minute (the data-model invariant
`estimated_duration_minutes ≥ 1`), if `A`'s window ends exactly where `B`'s
window starts then `check_execution_overlap` reports no overlap in either
argument order: the window test is half-open. -/
theorem c7_touching_windows_no_overlap (A B : Schedule) (tA tB : Int)
    (hA : parseStartTime A.start_time = some tA)
    (hB : parseStartTime B.start_time = some tB)
    (hdur : 1 ≤ A.estimated_duration_minutes)
    (htouch : tA + A.estimated_duration_minutes * 60 = tB) :
    check_execution_overlap A B = none ∧ check_execution_overlap B A = none := by
  constructor
  · unfold check_execution_overlap
    rw [hA, hB]
    simp only [ite_eq_right_iff]
    intro h
    exfalso
    rcases h with ⟨h1, h2⟩ | ⟨h1, h2⟩ <;> omega
  · unfold check_execution_overlap
    rw [hA, hB]
    simp only [ite_eq_right_iff]
    intro h
    exfalso
    rcases h with ⟨h1, h2⟩ | ⟨h1, h2⟩ <;> omega

/-- Witness for C7: `A` at 09:00 for 30 minutes, `B` at 09:30; the overlap
test reports no overlap either way. -/
theorem c7_witness :
    check_execution_overlap baseSched { baseSched with id := "s2", start_time := "09:30" } = none ∧
    check_execution_overlap { baseSched with id := "s2", start_time := "09:30" } baseSched = none :=
  c7_touching_windows_no_overlap baseSched
    { baseSched with id := "s2", start_time := "09:30" }
    (9 * 3600) (9 * 3600 + 30 * 60) (by decide) (by decide) (by decide) (by decide)

/-! ## C3: the conflict detector has no candidate-identity exclusion -/

/-- Inactive schedules contribute no conflict record. -/
lemma check_schedule_conflicts_all_inactive (store : Store) (new_schedule : Schedule)
    (h : ∀ p ∈ store, p.2.is_active = false) :
    check_schedule_conflicts store new_schedule = [] := by
  induction store with
  | nil => rfl
  | cons p rest ih =>
    have hp : p.2.is_active = false := h p (List.mem_cons_self p rest)
    have hrest : ∀ q ∈ rest, q.2.is_active = false := fun q hq => h q (List.mem_cons_of_mem p hq)
    simp only [check_schedule_conflicts, List.flatMap_cons] at *
    rw [hp]
    simpa using ih hrest

/-- An active store entry with the candidate's exact start time always yields a
direct-conflict record — including an entry that *is* the candidate. -/
lemma check_schedule_conflicts_self_mem (store : Store) (new_schedule : Schedule)
    (sid : String) (hmem : (sid, new_schedule) ∈ store)
    (hact : new_schedule.is_active = true) :
    Conflict.direct new_schedule.name new_schedule.start_time ∈
      check_schedule_conflicts store new_schedule := by
  induction store with
  | nil => cases hmem
  | cons p rest ih =>
    simp only [check_schedule_conflicts, List.flatMap_cons, List.mem_append]
    rcases List.mem_cons.mp hmem with heq | hmem'
    · left
      subst heq
      simp [hact]
    · right
      exact ih hmem'

/-- C3 counterexample: a store containing the candidate itself (same id, same
record, active).  `check_schedule_conflicts` emits both a direct time conflict
and a window self-overlap for that very schedule, so the claim's
"no conflict record is emitted for that same schedule" is false. -/
theorem c3_counterexample :
    check_schedule_conflicts [("s1", baseSched)] baseSched =
      [Conflict.direct "Morning run" "09:00", Conflict.overlap "Morning run"] ∧
    baseSched.is_active = true := by
  constructor
  · decide
  · rfl

/-- C3 amended: `check_schedule_conflicts` skips inactive schedules, but it
does **not** exclude the candidate by identity: when a schedule equal to the
candidate is present in the store under any id and is active, a conflict
record for that same schedule is emitted. -/
theorem c3_conflicts_skip_inactive_but_not_self :
    (∀ (store : Store) (new_schedule : Schedule),
      (∀ p ∈ store, p.2.is_active = false) →
      check_schedule_conflicts store new_schedule = []) ∧
    (∀ (store : Store) (new_schedule : Schedule) (sid : String),
      (sid, new_schedule) ∈ store → new_schedule.is_active = true →
      Conflict.direct new_schedule.name new_schedule.start_time ∈
        check_schedule_conflicts store new_schedule) :=
  ⟨check_schedule_conflicts_all_inactive, check_schedule_conflicts_self_mem⟩

/-- Witness for the amended C3 at concrete inputs: an all-inactive store yields
no conflicts, and a store holding the (active) candidate itself yields a
direct-conflict record for it. -/
theorem c3_witness :
    check_schedule_conflicts [("s1", { baseSched with is_active := false })] baseSched = [] ∧
    Conflict.direct baseSched.name baseSched.start_time ∈
      check_schedule_conflicts [("s1", baseSched)] baseSched :=
  ⟨c3_conflicts_skip_inactive_but_not_self.1 _ baseSched (by decide),
   c3_conflicts_skip_inactive_but_not_self.2 _ baseSched "s1" (by decide) (by decide)⟩

/-! ## C5: `calculate_sequential_time` -/

lemma latestEndStep_inactive {p : String × Schedule} (acc : Option Int)
    (hact : p.2.is_active = false) : latestEndStep acc p = acc := by
  simp [latestEndStep, hact]

lemma latestEndStep_isSome {p : String × Schedule} {acc : Option Int}
    (h : acc.isSome = true) : (latestEndStep acc p).isSome = true := by
  rcases acc with _ | a
  · simp at h
  · unfold latestEndStep
    by_cases hact : p.2.is_active = false
    · simp [hact]
    · rw [if_neg hact]
      cases hpt : parseStartTime p.2.start_time with
      | none => simp
      | some t =>
        simp only []
        split <;> simp

lemma latestEndStep_active_isSome {p : String × Schedule} {t : Int} (acc : Option Int)
    (hact : p.2.is_active = true) (hpt : parseStartTime p.2.start_time = some t) :
    (latestEndStep acc p).isSome = true := by
  unfold latestEndStep
  rw [if_neg (by simp [hact]), hpt]
  rcases acc with _ | a
  · simp
  · simp only []
    split <;> simp

lemma latestEndStep_mono {p : String × Schedule} {acc : Option Int} {a0 : Int}
    (h : acc = some a0) : ∃ b, latestEndStep acc p = some b ∧ a0 ≤ b := by
  subst h
  unfold latestEndStep
  by_cases hact : p.2.is_active = false
  · exact ⟨a0, by simp [hact], le_refl a0⟩
  · rw [if_neg hact]
    cases hpt : parseStartTime p.2.start_time with
    | none => exact ⟨a0, rfl, le_refl a0⟩
    | some t =>
      simp only []
      by_cases hc : t + p.2.estimated_duration_minutes * 60 > a0
      · exact ⟨t + p.2.estimated_duration_minutes * 60, by rw [if_pos hc], by omega⟩
      · exact ⟨a0, by rw [if_neg hc], le_refl a0⟩

lemma latestEndStep_bound {p : String × Schedule} {acc : Option Int} {b t : Int}
    (hb : latestEndStep acc p = some b)
    (hact : p.2.is_active = true) (hpt : parseStartTime p.2.start_time = some t) :
    t + p.2.estimated_duration_minutes * 60 ≤ b := by
  unfold latestEndStep at hb
  rw [if_neg (by simp [hact]), hpt] at hb
  rcases acc with _ | a0
  · simp only [Option.some.injEq] at hb
    omega
  · simp only [] at hb
    by_cases hc : t + p.2.estimated_duration_minutes * 60 > a0
    · rw [if_pos hc] at hb
      simp only [Option.some.injEq] at hb
      omega
    · rw [if_neg hc] at hb
      simp only [Option.some.injEq] at hb
      omega

lemma latestEndStep_attained {p : String × Schedule} {acc : Option Int} {b : Int}
    (hb : latestEndStep acc p = some b) :
    acc = some b ∨ (p.2.is_active = true ∧ ∃ t, parseStartTime p.2.start_time = some t ∧
      t + p.2.estimated_duration_minutes * 60 = b) := by
  unfold latestEndStep at hb
  by_cases hact : p.2.is_active = false
  · rw [if_pos hact] at hb
    exact Or.inl hb
  · have hact' : p.2.is_active = true := by
      cases hh : p.2.is_active
      · exact absurd hh hact
      · rfl
    rw [if_neg hact] at hb
    cases hpt : parseStartTime p.2.start_time with
    | none => rw [hpt] at hb; exact Or.inl hb
    | some t =>
      rw [hpt] at hb
      rcases acc with _ | a0
      · simp only [Option.some.injEq] at hb
        exact Or.inr ⟨hact', t, rfl, hb⟩
      · simp only [] at hb
        by_cases hc : t + p.2.estimated_duration_minutes * 60 > a0
        · rw [if_pos hc] at hb
          simp only [Option.some.injEq] at hb
          exact Or.inr ⟨hact', t, rfl, hb⟩
        · rw [if_neg hc] at hb
          exact Or.inl hb

lemma latestEndAux_all_inactive :
    ∀ (store : Store) (acc : Option Int), (∀ p ∈ store, p.2.is_active = false) →
      latestEndAux acc store = acc := by
  intro store
  induction store with
  | nil => intro acc _; rfl
  | cons p rest ih =>
    intro acc h
    have hp : p.2.is_active = false := h p (List.mem_cons_self p rest)
    simp only [latestEndAux, latestEndStep_inactive acc hp]
    exact ih acc fun q hq => h q (List.mem_cons_of_mem p hq)

lemma latestEndAux_isSome :
    ∀ (store : Store) (acc : Option Int),
      (acc.isSome = true ∨ ∃ p ∈ store, p.2.is_active = true ∧
        (parseStartTime p.2.start_time).isSome = true) →
      (latestEndAux acc store).isSome = true := by
  intro store
  induction store with
  | nil =>
    intro acc h
    rcases h with h | ⟨p, hp, _⟩
    · exact h
    · cases hp
  | cons p rest ih =>
    intro acc h
    simp only [latestEndAux]
    rcases h with h | ⟨q, hq, hact, hparse⟩
    · exact ih _ (Or.inl (latestEndStep_isSome h))
    · rcases List.mem_cons.mp hq with heq | hqrest
      · subst heq
        rcases Option.isSome_iff_exists.mp hparse with ⟨t, hpt⟩
        exact ih _ (Or.inl (latestEndStep_active_isSome acc hact hpt))
      · exact ih _ (Or.inr ⟨q, hqrest, hact, hparse⟩)

lemma latestEndAux_acc_le :
    ∀ (store : Store) (acc : Option Int) (le a0 : Int),
      latestEndAux acc store = some le → acc = some a0 → a0 ≤ le := by
  intro store
  induction store with
  | nil =>
    intro acc le a0 h ha0
    rw [ha0] at h
    simp only [latestEndAux, Option.some.injEq] at h
    omega
  | cons p rest ih =>
    intro acc le a0 h ha0
    simp only [latestEndAux] at h
    rcases @latestEndStep_mono p acc a0 ha0 with ⟨b, hb, hab⟩
    have := ih _ le b h hb
    omega

lemma latestEndAux_le :
    ∀ (store : Store) (acc : Option Int) (le : Int),
      latestEndAux acc store = some le →
      (∀ p ∈ store, p.2.is_active = true → ∀ t, parseStartTime p.2.start_time = some t →
        t + p.2.estimated_duration_minutes * 60 ≤ le) := by
  intro store
  induction store with
  | nil =>
    intro acc le _ p hp
    exact absurd hp (List.not_mem_nil p)
  | cons p rest ih =>
    intro acc le h q hq hqact t hqt
    simp only [latestEndAux] at h
    rcases List.mem_cons.mp hq with heq | hqrest
    · subst heq
      have hsome : (latestEndStep acc q).isSome = true :=
        latestEndStep_active_isSome acc hqact hqt
      rcases Option.isSome_iff_exists.mp hsome with ⟨b, hb⟩
      have h1 : t + q.2.estimated_duration_minutes * 60 ≤ b :=
        latestEndStep_bound hb hqact hqt
      have h2 : b ≤ le := latestEndAux_acc_le rest _ le b h hb
      omega
    · exact ih _ le h q hqrest hqact t hqt

lemma latestEndAux_attained :
    ∀ (store : Store) (acc : Option Int) (le : Int),
      latestEndAux acc store = some le →
      acc = some le ∨ ∃ p ∈ store, p.2.is_active = true ∧ ∃ t,
        parseStartTime p.2.start_time = some t ∧
        t + p.2.estimated_duration_minutes * 60 = le := by
  intro store
  induction store with
  | nil =>
    intro acc le h
    exact Or.inl h
  | cons p rest ih =>
    intro acc le h
    simp only [latestEndAux] at h
    rcases ih _ le h with hacc | ⟨q, hq, hqact, t, hqt, hqe⟩
    · rcases latestEndStep_attained hacc with h1 | ⟨hact', t, hpt, hte⟩
      · exact Or.inl h1
      · exact Or.inr ⟨p, List.mem_cons_self p rest, hact', t, hpt, hte⟩
    · exact Or.inr ⟨q, List.mem_cons_of_mem p hq, hqact, t, hqt, hqe⟩

/-- C5: `calculate_sequential_time` returns `None` when the store has no
active schedule; when any active schedule has a parseable start time the
computed `latest_end_time` is `some le`, `le` is exactly the maximum end time
(`start + estimated_duration`) over the active parseable schedules, and the
returned string renders a datetime at least `le` plus the fixed 10-minute
buffer — in particular strictly after the maximum end time. -/
theorem c5_sequential_time_spec (store : Store) :
    ((∀ p ∈ store, p.2.is_active = false) → calculate_sequential_time store = none) ∧
    ((∃ p ∈ store, p.2.is_active = true ∧ (parseStartTime p.2.start_time).isSome = true) →
      (latestEndTime store).isSome = true) ∧
    (∀ le, latestEndTime store = some le →
      (∀ p ∈ store, p.2.is_active = true → ∀ t, parseStartTime p.2.start_time = some t →
        t + p.2.estimated_duration_minutes * 60 ≤ le) ∧
      (∃ p ∈ store, p.2.is_active = true ∧ ∃ t, parseStartTime p.2.start_time = some t ∧
        t + p.2.estimated_duration_minutes * 60 = le) ∧
      (∃ m : Int, le + 600 ≤ m ∧ calculate_sequential_time store = some (strftimeS m))) := by
  refine ⟨?_, ?_, ?_⟩
  · intro h
    unfold calculate_sequential_time latestEndTime
    rw [latestEndAux_all_inactive store none h]
  · intro ⟨p, hp, hact, hparse⟩
    exact latestEndAux_isSome store none (Or.inr ⟨p, hp, hact, hparse⟩)
  · intro le hle
    refine ⟨latestEndAux_le store none le hle, ?_, ?_⟩
    · rcases latestEndAux_attained store none le hle with h | h
      · cases h
      · exact h
    · unfold calculate_sequential_time
      rw [hle]
      by_cases hh : 23 ≤ hourOf (le + 600)
      · refine ⟨dayStart (le + 600) + 8 * 3600 + (le + 600).emod 60 + 86400, ?_, by simp [hh]⟩
        have h1 : 0 ≤ (le + 600).emod 86400 := Int.emod_nonneg _ (by norm_num)
        have h2 : (le + 600).emod 86400 < 86400 := Int.emod_lt_of_pos _ (by norm_num)
        have h3 : 0 ≤ (le + 600).emod 60 := Int.emod_nonneg _ (by norm_num)
        unfold dayStart
        omega
      · exact ⟨le + 600, le_refl _, by simp [hh]⟩

/-- Witness for C5: a store with one active schedule at `09:00` with a
30-minute estimated window; the sequencer proposes `09:40` (end 09:30 plus the
10-minute buffer). -/
theorem c5_witness :
    calculate_sequential_time [("s1", baseSched)] = some "09:40" ∧
    (∃ m : Int, 34200 + 600 ≤ m ∧
      calculate_sequential_time [("s1", baseSched)] = some (strftimeS m)) :=
  ⟨by decide, ((c5_sequential_time_spec [("s1", baseSched)]).2.2 34200 (by decide)).2.2⟩

/-! ## C1: the Job Executor's `finally` block -/

/-- Two successive in-place writes of the same schedule object persist as a
single write of the final value. -/
lemma dictUpdate_dictUpdate (st : Store) (k : String) (v w : Schedule) :
    dictUpdate (dictUpdate st k v) k w = dictUpdate st k w := by
  unfold dictUpdate
  rw [List.map_map]
  apply List.map_congr_left
  intro p _
  by_cases h : (p.1 == k) = true
  · simp [Function.comp, h]
  · simp [Function.comp, h]

/-- C1: for every store, schedule, per-term outcome list, optional loop fault
and completion timestamp, after `execute_schedule` terminates — whether the
term loop completed normally (`fault = none`) or an exception escaped it
(`fault = some k`) — the schedule has `currently_running = false`, `last_run`
equal to the completion timestamp, `total_runs` incremented by exactly one and
`auto_sequence = false`, and the last store snapshot passed to
`save_schedules` is the store updated with exactly that final schedule. -/
theorem c1_execute_schedule_finalizes (store : Store) (sid : String) (sched : Schedule)
    (outs : List Bool) (fault : Option Nat) (completion : String) :
    (execute_schedule store sid sched outs fault completion).1.currently_running = false ∧
    (execute_schedule store sid sched outs fault completion).1.last_run = completion ∧
    (execute_schedule store sid sched outs fault completion).1.total_runs =
      sched.total_runs + 1 ∧
    (execute_schedule store sid sched outs fault completion).1.auto_sequence = false ∧
    (execute_schedule store sid sched outs fault completion).2.2.1.getLast? =
      some ((execute_schedule store sid sched outs fault completion).2.1) ∧
    (execute_schedule store sid sched outs fault completion).2.1 =
      dictUpdate store sid (execute_schedule store sid sched outs fault completion).1 := by
  exact ⟨rfl, rfl, rfl, rfl, rfl, dictUpdate_dictUpdate store sid _ _⟩

/-- Witness for C1: a concrete run (second term fails, no loop fault). -/
theorem c1_witness :
    (execute_schedule [("s1", baseSched)] "s1" baseSched [true, false] none
      "2026-10-12 09:31:00").1.currently_running = false ∧
    (execute_schedule [("s1", baseSched)] "s1" baseSched [true, false] none
      "2026-10-12 09:31:00").1.total_runs = baseSched.total_runs + 1 :=
  ⟨(c1_execute_schedule_finalizes [("s1", baseSched)] "s1" baseSched [true, false] none
      "2026-10-12 09:31:00").1,
   (c1_execute_schedule_finalizes [("s1", baseSched)] "s1" baseSched [true, false] none
      "2026-10-12 09:31:00").2.2.1⟩

/-! ## C2: `load_schedules` does not reset `currently_running` -/

/-- A successful store read names a pair of the store. -/
lemma lookup_mem (st : Store) (q : String) (w : Schedule)
    (h : lookupStore st q = some w) : ∃ pr ∈ st, pr.2 = w := by
  unfold lookupStore at h
  rcases hf : st.find? (fun p => p.1 == q) with _ | pair
  · rw [hf] at h; cases h
  · rw [hf] at h
    simp only [Option.map_some', Option.some.injEq] at h
    exact ⟨pair, List.mem_of_find?_eq_some hf, h⟩

/-- Every pair of `dictInsert st k v` carries either `v` or a value of `st`. -/
lemma mem_dictInsert (st : Store) (k : String) (v : Schedule) (pr : String × Schedule)
    (h : pr ∈ dictInsert st k v) : pr.2 = v ∨ pr ∈ st := by
  unfold dictInsert at h
  by_cases hany : st.any (fun p => p.1 == k) = true
  · rw [if_pos hany] at h
    rcases List.mem_map.mp h with ⟨orig, ho, heq⟩
    by_cases hok : (orig.1 == k) = true
    · rw [if_pos hok] at heq
      left
      rw [← heq]
    · rw [if_neg hok] at heq
      right
      rw [← heq]
      exact ho
  · rw [if_neg hany] at h
    rcases List.mem_append.mp h with h1 | h2
    · exact Or.inr h1
    · left
      have : pr = (k, v) := by simpa using h2
      rw [this]

/-- Any value readable from the store built by `load_schedules`' loop
satisfies every property shared by the initial store's values and the
records. -/
lemma load_foldl_values :
    ∀ (rs : List Schedule) (st : Store) (P : Schedule → Prop),
      (∀ pr ∈ st, P pr.2) → (∀ r ∈ rs, P r) →
      ∀ q w, lookupStore (rs.foldl (fun acc r => dictInsert acc r.id r) st) q = some w → P w := by
  intro rs
  induction rs with
  | nil =>
    intro st P hst _ q w h
    rcases lookup_mem st q w h with ⟨pr, hpr, hw⟩
    exact hw ▸ hst pr hpr
  | cons r rest ih =>
    intro st P hst hrs q w h
    simp only [List.foldl_cons] at h
    refine ih (dictInsert st r.id r) P ?_ (fun x hx => hrs x (List.mem_cons_of_mem r hx)) q w h
    intro pr hpr
    rcases mem_dictInsert st r.id r pr hpr with h1 | h1
    · exact h1 ▸ hrs r (List.mem_cons_self r rest)
    · exact hst pr h1

/-- C2 counterexample: a persisted record with `currently_running = true`
loads with `currently_running` still `true` — `load_schedules` performs no
stale-flag reset, contradicting the claim. -/
theorem c2_counterexample :
    lookupStore (load_schedules [] (LoadInput.records [cexRunning])) "r1" = some cexRunning ∧
    cexRunning.currently_running = true := by
  constructor
  · decide
  · rfl

/-- C2 amended: `load_schedules` rebuilds the store from the persisted records
verbatim — every schedule readable from the loaded store is one of the records
unchanged; in particular a record persisted with `currently_running = true`
remains `currently_running = true` (no crash-recovery reset happens). -/
theorem c2_load_keeps_records_verbatim (prev : Store) (rs : List Schedule)
    (sid : String) (s : Schedule)
    (h : lookupStore (load_schedules prev (LoadInput.records rs)) sid = some s) :
    s ∈ rs := by
  unfold load_schedules at h
  refine load_foldl_values rs [] (· ∈ rs) ?_ (fun r hr => hr) sid s h
  intro pr hpr
  cases hpr

/-- Witness for the amended C2: the loaded schedule under key `"r1"` is the
record itself, with its running flag intact. -/
theorem c2_witness :
    lookupStore (load_schedules [] (LoadInput.records [cexRunning])) "r1" = some cexRunning ∧
    cexRunning ∈ [cexRunning] ∧ cexRunning.currently_running = true :=
  ⟨by decide,
   c2_load_keeps_records_verbatim [] [cexRunning] "r1" cexRunning (by decide),
   rfl⟩

/-! ## C8: auto-sequencing defers while another schedule runs -/

/-- C8: on a scheduler tick, a schedule that is not itself running, is due,
has `auto_sequence` set, and sees some other active schedule with
`currently_running = true` in the tick's running snapshot, is decided
`waitAutoSequence` — it is never dispatched this tick. -/
theorem c8_auto_sequence_defers (now : Int) (active_schedules : List Schedule)
    (s : Schedule)
    (hnr : s.currently_running = false)
    (hdue : shouldRun now s = true)
    (hauto : s.auto_sequence = true)
    (hother : ∃ o ∈ active_schedules, o.currently_running = true) :
    decide_schedule now (active_schedules.filter (fun t => t.currently_running)) s =
      Decision.waitAutoSequence ∧
    ∀ d, (s, d) ∈ scheduler_tick now active_schedules → d = Decision.waitAutoSequence := by
  have hkey : decide_schedule now
      (active_schedules.filter (fun t => t.currently_running)) s =
      Decision.waitAutoSequence := by
    rcases hother with ⟨o, ho, hoc⟩
    have hmemf : o ∈ active_schedules.filter (fun t => t.currently_running) :=
      List.mem_filter.mpr ⟨ho, hoc⟩
    have hne : (active_schedules.filter (fun t => t.currently_running)).isEmpty = false := by
      cases hemp : (active_schedules.filter (fun t => t.currently_running)).isEmpty
      · rfl
      · exfalso
        rw [List.isEmpty_iff] at hemp
        rw [hemp] at hmemf
        cases hmemf
    unfold decide_schedule
    rw [if_neg (by simp [hnr]), if_neg (by simp [hdue]),
      if_pos (by simp [hauto, hne])]
  refine ⟨hkey, ?_⟩
  intro d hd
  unfold scheduler_tick at hd
  simp only [List.mem_map, Prod.mk.injEq] at hd
  rcases hd with ⟨a, _, ha1, ha2⟩
  rw [← ha2, ha1, hkey]

/-- Witness for C8: `autoSeqSched` (due at 10:00, `auto_sequence` set) is
decided `waitAutoSequence` while `runningSched` is running, at `now` = day 2,
10:00:00 (second 208800 of the axis, whose `strftime("%H:%M")` is `"10:00"`). -/
theorem c8_witness :
    decide_schedule 208800
      ([autoSeqSched, runningSched].filter (fun t => t.currently_running))
      autoSeqSched = Decision.waitAutoSequence ∧
    ∀ d, (autoSeqSched, d) ∈ scheduler_tick 208800 [autoSeqSched, runningSched] →
      d = Decision.waitAutoSequence :=
  c8_auto_sequence_defers 208800 [autoSeqSched, runningSched] autoSeqSched
    (by decide) (by decide) (by decide)
    ⟨runningSched, by decide, by decide⟩

/-! ## C10: a valid start time the due check can never match -/

/-- C10: `"9:30"` (non-zero-padded hour) is accepted by
`validate_time_format`, yet differs from `strftime("%H:%M")` at every hour and
minute — `%H` zero-pads — so the scheduler's first-run due condition
(exact string equality of the current time against `start_time`) is false on
every tick for a schedule whose `start_time` is `"9:30"`. -/
theorem c10_first_run_unreachable :
    validate_time_format "9:30" = true ∧
    (∀ h : Nat, h < 24 → ∀ m : Nat, m < 60 → strftimeHM h m ≠ "9:30") ∧
    (∀ s : Schedule, s.start_time = "9:30" → s.total_runs = 0 →
      ∀ t : Int, firstRunDue (strftimeS t) s = false) := by
  have key : ∀ h : Nat, h < 24 → ∀ m : Nat, m < 60 → strftimeHM h m ≠ "9:30" := by decide
  refine ⟨by decide, key, ?_⟩
  intro s hst _ t
  unfold firstRunDue
  have hne : ¬(strftimeS t = s.start_time) := by
    rw [hst]
    unfold strftimeS
    apply key
    · unfold hourOf
      have h1 : 0 ≤ t.emod 86400 := Int.emod_nonneg _ (by norm_num)
      have h2 : t.emod 86400 < 86400 := Int.emod_lt_of_pos _ (by norm_num)
      omega
    · unfold minuteOf
      have h1 : 0 ≤ t.emod 3600 := Int.emod_nonneg _ (by norm_num)
      have h2 : t.emod 3600 < 3600 := Int.emod_lt_of_pos _ (by norm_num)
      omega
  simp [beq_iff_eq, hne]

/-- Witness for C10 at concrete inputs: hour 9, minute 30, and the tick at
second 34200 (09:30:00). -/
theorem c10_witness :
    validate_time_format "9:30" = true ∧
    strftimeHM 9 30 ≠ "9:30" ∧
    firstRunDue (strftimeS 34200) { baseSched with start_time := "9:30" } = false :=
  ⟨c10_first_run_unreachable.1,
   c10_first_run_unreachable.2.1 9 (by decide) 30 (by decide),
   c10_first_run_unreachable.2.2 { baseSched with start_time := "9:30" } rfl rfl 34200⟩

/-! ## C4 and C6: the Safe-Time Suggester -/

/-- Everything `appendIfSafe` adds passed `is_time_slot_safe`. -/
lemma appendIfSafe_mem (store : Store) (new_schedule : Schedule) (acc : List String)
    (ts t : String) (h : t ∈ appendIfSafe store new_schedule acc ts) :
    t ∈ acc ∨ is_time_slot_safe store t new_schedule = true := by
  unfold appendIfSafe at h
  by_cases hs : is_time_slot_safe store ts new_schedule = true
  · rw [if_pos hs] at h
    rcases List.mem_append.mp h with h1 | h2
    · exact Or.inl h1
    · right
      have ht : t = ts := by simpa using h2
      rw [ht]
      exact hs
  · rw [if_neg hs] at h
    exact Or.inl h

/-- The before-slot scanning loop only adds verified-safe times. -/
lemma beforeGo_mem (store : Store) (new_schedule : Schedule) :
    ∀ (f : Nat) (L c : Int) (acc : List String) (t : String),
      t ∈ beforeGo store new_schedule f L c acc →
      t ∈ acc ∨ is_time_slot_safe store t new_schedule = true := by
  intro f
  induction f with
  | zero => intro L c acc t h; exact Or.inl h
  | succ f ih =>
    intro L c acc t h
    unfold beforeGo at h
    by_cases hcond : c ≤ L ∧ acc.length < 4
    · rw [if_pos hcond] at h
      by_cases h15 : minuteOf c < 15
      · rw [if_pos h15] at h
        rcases ih _ _ _ t h with h1 | h1
        · exact appendIfSafe_mem _ _ _ _ _ h1
        · exact Or.inr h1
      · rw [if_neg h15] at h
        by_cases h45 : minuteOf c < 45
        · rw [if_pos h45] at h
          rcases ih _ _ _ t h with h1 | h1
          · exact appendIfSafe_mem _ _ _ _ _ h1
          · exact Or.inr h1
        · rw [if_neg h45] at h
          rcases ih _ _ _ t h with h1 | h1
          · exact appendIfSafe_mem _ _ _ _ _ h1
          · exact Or.inr h1
    · rw [if_neg hcond] at h
      exact Or.inl h

/-- The after-slot scanning loop only adds verified-safe times. -/
lemma afterGo_mem (store : Store) (new_schedule : Schedule) :
    ∀ (f : Nat) (e c : Int) (acc : List String) (t : String),
      t ∈ afterGo store new_schedule f e c acc →
      t ∈ acc ∨ is_time_slot_safe store t new_schedule = true := by
  intro f
  induction f with
  | zero => intro e c acc t h; exact Or.inl h
  | succ f ih =>
    intro e c acc t h
    unfold afterGo at h
    by_cases hcond : c ≤ e ∧ acc.length < 4
    · rw [if_pos hcond] at h
      by_cases h15 : minuteOf c < 15
      · rw [if_pos h15] at h
        rcases ih _ _ _ t h with h1 | h1
        · exact appendIfSafe_mem _ _ _ _ _ h1
        · exact Or.inr h1
      · rw [if_neg h15] at h
        by_cases h45 : minuteOf c < 45
        · rw [if_pos h45] at h
          rcases ih _ _ _ t h with h1 | h1
          · exact appendIfSafe_mem _ _ _ _ _ h1
          · exact Or.inr h1
        · rw [if_neg h45] at h
          rcases ih _ _ _ t h with h1 | h1
          · exact Or.inl h1
          · exact Or.inr h1
    · rw [if_neg hcond] at h
      exact Or.inl h

/-- Every time in `find_slots_before_conflicts` is verified safe. -/
lemma find_slots_before_safe (store : Store) (new_schedule : Schedule)
    (conflicting : List Schedule) (now : Int) (t : String)
    (h : t ∈ find_slots_before_conflicts store new_schedule conflicting now) :
    is_time_slot_safe store t new_schedule = true := by
  unfold find_slots_before_conflicts at h
  split at h
  · cases h
  · split at h
    · cases h
    · dsimp only at h
      split at h
      · rcases beforeGo_mem store new_schedule _ _ _ _ t h with h1 | h1
        · cases h1
        · exact h1
      · cases h

/-- Every time in `find_slots_after_conflicts` is verified safe. -/
lemma find_slots_after_safe (store : Store) (new_schedule : Schedule)
    (conflicting : List Schedule) (now : Int) (t : String)
    (h : t ∈ find_slots_after_conflicts store new_schedule conflicting now) :
    is_time_slot_safe store t new_schedule = true := by
  unfold find_slots_after_conflicts at h
  split at h
  · cases h
  · split at h
    · cases h
    · rcases afterGo_mem store new_schedule _ _ _ _ t h with h1 | h1
      · cases h1
      · exact h1

/-- Membership invariant of the fallback fold. -/
lemma fallback_foldl_mem (store : Store) (new_schedule : Schedule) :
    ∀ (bases : List Int) (acc : List String) (t : String),
      t ∈ bases.foldl (fun acc b =>
        if 6 ≤ hourOf b ∧ hourOf b ≤ 22 then
          appendIfSafe store new_schedule acc
            (strftimeS (replaceMinSec b (if minuteOf b < 30 then 0 else 30)))
        else acc) acc →
      t ∈ acc ∨ is_time_slot_safe store t new_schedule = true := by
  intro bases
  induction bases with
  | nil => intro acc t h; exact Or.inl h
  | cons b bs ih =>
    intro acc t h
    simp only [List.foldl_cons] at h
    rcases ih _ t h with h1 | h1
    · by_cases hb : 6 ≤ hourOf b ∧ hourOf b ≤ 22
      · rw [if_pos hb] at h1
        exact appendIfSafe_mem _ _ _ _ _ h1
      · rw [if_neg hb] at h1
        exact Or.inl h1
    · exact Or.inr h1

/-- Every time in `find_fallback_slots` is verified safe. -/
lemma find_fallback_slots_safe (store : Store) (new_schedule : Schedule) (now : Int)
    (t : String) (h : t ∈ find_fallback_slots store new_schedule now) :
    is_time_slot_safe store t new_schedule = true := by
  unfold find_fallback_slots at h
  rcases fallback_foldl_mem store new_schedule _ [] t h with h1 | h1
  · cases h1
  · exact h1

/-- `pyDedupGo` returns a sublist of the remaining input, membership-wise. -/
lemma pyDedupGo_subset :
    ∀ (l seen : List String) (t : String), t ∈ pyDedupGo seen l → t ∈ l := by
  intro l
  induction l with
  | nil => intro seen t h; cases h
  | cons x xs ih =>
    intro seen t h
    unfold pyDedupGo at h
    by_cases hx : x ∈ seen
    · rw [if_pos hx] at h
      exact List.mem_cons_of_mem x (ih seen t h)
    · rw [if_neg hx] at h
      rcases List.mem_cons.mp h with h1 | h1
      · exact h1 ▸ List.mem_cons_self x xs
      · exact List.mem_cons_of_mem x (ih _ t h1)

/-- Nothing already seen is emitted again. -/
lemma pyDedupGo_not_mem_seen :
    ∀ (l seen : List String) (t : String), t ∈ pyDedupGo seen l → t ∉ seen := by
  intro l
  induction l with
  | nil => intro seen t h; cases h
  | cons x xs ih =>
    intro seen t h
    unfold pyDedupGo at h
    by_cases hx : x ∈ seen
    · rw [if_pos hx] at h
      exact ih seen t h
    · rw [if_neg hx] at h
      rcases List.mem_cons.mp h with h1 | h1
      · exact h1 ▸ hx
      · intro hts
        exact ih (x :: seen) t h1 (List.mem_cons_of_mem x hts)

/-- The deduplicated list has no duplicates. -/
lemma pyDedupGo_nodup : ∀ (l seen : List String), (pyDedupGo seen l).Nodup := by
  intro l
  induction l with
  | nil => intro seen; exact List.nodup_nil
  | cons x xs ih =>
    intro seen
    unfold pyDedupGo
    by_cases hx : x ∈ seen
    · rw [if_pos hx]
      exact ih seen
    · rw [if_neg hx]
      refine List.nodup_cons.mpr ⟨?_, ih (x :: seen)⟩
      intro hmem
      exact pyDedupGo_not_mem_seen xs (x :: seen) x hmem (List.mem_cons_self x seen)

lemma pyDedup_subset (l : List String) (t : String) (h : t ∈ pyDedup l) : t ∈ l :=
  pyDedupGo_subset l [] t h

lemma pyDedup_nodup (l : List String) : (pyDedup l).Nodup :=
  pyDedupGo_nodup l []

/-- Inserting is a permutation of consing. -/
lemma insertByKey_perm (key : String → Int) (x : String) :
    ∀ l : List String, List.Perm (insertByKey key x l) (x :: l) := by
  intro l
  induction l with
  | nil => exact List.Perm.refl _
  | cons y ys ih =>
    unfold insertByKey
    by_cases h : key y ≤ key x
    · rw [if_pos h]
      exact (List.Perm.cons y ih).trans (List.Perm.swap x y ys)
    · rw [if_neg h]

lemma stableSort_foldl_perm (key : String → Int) :
    ∀ (l acc : List String),
      List.Perm (l.foldl (fun acc x => insertByKey key x acc) acc) (acc ++ l) := by
  intro l
  induction l with
  | nil => intro acc; simp
  | cons x xs ih =>
    intro acc
    simp only [List.foldl_cons]
    have h1 := ih (insertByKey key x acc)
    have h2 : List.Perm (insertByKey key x acc ++ xs) ((x :: acc) ++ xs) :=
      (insertByKey_perm key x acc).append_right xs
    have h3 : List.Perm ((x :: acc) ++ xs) (acc ++ x :: xs) := by
      simpa using (@List.perm_middle _ x acc xs).symm
    exact (h1.trans h2).trans h3

/-- The stable sort is a permutation of its input. -/
lemma stableSortByKey_perm (key : String → Int) (l : List String) :
    List.Perm (stableSortByKey key l) l := by
  simpa using stableSort_foldl_perm key l []

/-- `sort_by_time_proximity` is a permutation of its input. -/
lemma sort_by_time_proximity_perm (l : List String) (cur : String) :
    List.Perm (sort_by_time_proximity l cur) l := by
  unfold sort_by_time_proximity
  split
  · exact List.Perm.refl l
  · exact stableSortByKey_perm _ l

/-- C4: every time string returned by `get_safe_time_suggestions`, used as the
start time of the probe schedule carrying the candidate's terms and estimated
duration, yields an empty conflict list from `check_schedule_conflicts`
against the unchanged store. -/
theorem c4_suggestions_safe (store : Store) (new_schedule : Schedule) (now : Int)
    (t : String) (ht : t ∈ get_safe_time_suggestions store new_schedule now) :
    check_schedule_conflicts store (mkProbe new_schedule t) = [] := by
  have hsafe : is_time_slot_safe store t new_schedule = true := by
    unfold get_safe_time_suggestions at ht
    have ht2 := (List.take_sublist 8 _).subset ht
    have ht3 := (sort_by_time_proximity_perm _ _).mem_iff.mp ht2
    have ht4 := pyDedup_subset _ t ht3
    split at ht4
    · rcases List.mem_append.mp ht4 with h1 | h2
      · rcases List.mem_append.mp h1 with ha | hb
        · exact find_slots_before_safe _ _ _ _ t ha
        · exact find_slots_after_safe _ _ _ _ t hb
      · exact find_fallback_slots_safe _ _ _ t h2
    · rcases List.mem_append.mp ht4 with ha | hb
      · exact find_slots_before_safe _ _ _ _ t ha
      · exact find_slots_after_safe _ _ _ _ t hb
  unfold is_time_slot_safe at hsafe
  exact List.eq_nil_of_length_eq_zero (by simpa using hsafe)

/-- Witness for C4: with one active schedule at 09:00 (estimated 30 minutes)
and an identical candidate, at `now` = 10:00:00 of the epoch day the suggester
returns after-slots led by `"10:00"`, and the probe at `"10:00"` is
conflict-free. -/
theorem c4_witness :
    "10:00" ∈ get_safe_time_suggestions [("s1", baseSched)] newSched 36000 ∧
    check_schedule_conflicts [("s1", baseSched)] (mkProbe newSched "10:00") = [] :=
  ⟨by decide,
   c4_suggestions_safe [("s1", baseSched)] newSched 36000 "10:00" (by decide)⟩

/-- C6: `get_safe_time_suggestions` returns at most 8 times and never two
equal time strings. -/
theorem c6_suggestions_bounded_nodup (store : Store) (new_schedule : Schedule)
    (now : Int) :
    (get_safe_time_suggestions store new_schedule now).length ≤ 8 ∧
    (get_safe_time_suggestions store new_schedule now).Nodup := by
  constructor
  · unfold get_safe_time_suggestions
    rw [List.length_take]
    exact min_le_left _ _
  · unfold get_safe_time_suggestions
    exact List.Nodup.sublist (List.take_sublist _ _)
      ((sort_by_time_proximity_perm _ _).symm.nodup (pyDedup_nodup _))

/-- Witness for C6 at the concrete inputs of the C4 witness. -/
theorem c6_witness :
    (get_safe_time_suggestions [("s1", baseSched)] newSched 36000).length ≤ 8 ∧
    (get_safe_time_suggestions [("s1", baseSched)] newSched 36000).Nodup :=
  c6_suggestions_bounded_nodup [("s1", baseSched)] newSched 36000

/-! ## C9: `validate_duration` -/

lemma toLower_of_isDigit {c : Char} (h : c.isDigit = true) : c.toLower = c := by
  simp [Char.isDigit] at h
  have hle : c.toNat ≤ 57 := h.2
  unfold Char.toLower
  rw [if_neg]
  simp only [ge_iff_le, Bool.and_eq_true, decide_eq_true_eq, not_and]
  intro h65
  omega

lemma not_ws_of_isDigit {c : Char} (h : c.isDigit = true) : c.isWhitespace = false := by
  cases hw : c.isWhitespace
  · rfl
  · exfalso
    have hc : ((c = ' ' ∨ c = '\t') ∨ c = '\r') ∨ c = '\n' := by
      simpa [Char.isWhitespace] using hw
    rcases hc with ((rfl | rfl) | rfl) | rfl <;> revert h <;> decide

lemma map_toLower_digits (ds : List Char) (hd : ∀ c ∈ ds, c.isDigit = true) :
    ds.map Char.toLower = ds := by
  rw [show ds.map Char.toLower = ds.map id from
    List.map_congr_left fun c hc => toLower_of_isDigit (hd c hc), List.map_id]

lemma dropWhile_all_false {p : Char → Bool} :
    ∀ l : List Char, (∀ c ∈ l, p c = false) → l.dropWhile p = l := by
  intro l h
  cases l with
  | nil => rfl
  | cons a l' =>
    rw [List.dropWhile_cons_of_neg]
    simp [h a (List.mem_cons_self a l')]

lemma takeWhile_all_true {p : Char → Bool} :
    ∀ l : List Char, (∀ c ∈ l, p c = true) → l.takeWhile p = l := by
  intro l
  induction l with
  | nil => intro _; rfl
  | cons a l' ih =>
    intro h
    rw [List.takeWhile_cons_of_pos (h a (List.mem_cons_self a l'))]
    rw [ih fun c hc => h c (List.mem_cons_of_mem a hc)]

lemma stripL_eq_self (l : List Char) (h : ∀ c ∈ l, c.isWhitespace = false) :
    stripL l = l := by
  unfold stripL
  rw [dropWhile_all_false l h,
    dropWhile_all_false l.reverse (fun c hc => h c (List.mem_reverse.mp hc)),
    List.reverse_reverse]

lemma no_ws_append (ds t : List Char) (hd : ∀ c ∈ ds, c.isDigit = true)
    (ht : ∀ c ∈ t, c.isWhitespace = false) : ∀ c ∈ ds ++ t, c.isWhitespace = false := by
  intro c hc
  rcases List.mem_append.mp hc with h | h
  · exact not_ws_of_isDigit (hd c h)
  · exact ht c h

lemma firstToken_eq_self (l : List Char) (hne : l ≠ [])
    (h : ∀ c ∈ l, c.isWhitespace = false) : firstToken l = some l := by
  unfold firstToken
  rw [dropWhile_all_false l h, if_neg hne]
  congr 1
  apply takeWhile_all_true
  intro c hc
  simp [h c hc]

lemma firstToken_digits_append (ds t : List Char) (hne : ds ≠ [])
    (hd : ∀ c ∈ ds, c.isDigit = true) (ht : ∀ c ∈ t, c.isWhitespace = false) :
    firstToken (ds ++ t) = some (ds ++ t) := by
  apply firstToken_eq_self
  · intro h
    exact hne (List.append_eq_nil.mp h).1
  · exact no_ws_append ds t hd ht

lemma isPrefixOf_append_self : ∀ l r : List Char, l.isPrefixOf (l ++ r) = true := by
  intro l r
  induction l with
  | nil => cases r <;> rfl
  | cons a l' ih => simp [List.isPrefixOf, ih]

lemma endsWithL_append (ds t suf : List Char) :
    endsWithL (ds ++ t) suf = suf.reverse.isPrefixOf (t.reverse ++ ds.reverse) := by
  unfold endsWithL
  rw [List.reverse_append]

lemma endsWithL_append_self (ds t : List Char) : endsWithL (ds ++ t) t = true := by
  rw [endsWithL_append]
  exact isPrefixOf_append_self _ _

lemma endsWithL_append_ne (ds t suf tr sr : List Char)
    (htr : t.reverse = tr) (hsr : suf.reverse = sr)
    (h : ∀ rest : List Char, sr.isPrefixOf (tr ++ rest) = false) :
    endsWithL (ds ++ t) suf = false := by
  rw [endsWithL_append, htr, hsr]
  exact h ds.reverse

lemma isPrefixOf_nondigit_head (c0 : Char) (p l : List Char) (hc0 : c0.isDigit = false)
    (hl : ∃ d rest, l = d :: rest ∧ d.isDigit = true) :
    (c0 :: p).isPrefixOf l = false := by
  rcases hl with ⟨d, rest, rfl, hdd⟩
  have hne : ¬(c0 = d) := by
    intro heq
    rw [heq, hdd] at hc0
    cases hc0
  simp [List.isPrefixOf, hne]

lemma reverse_digits_head (ds : List Char) (hne : ds ≠ [])
    (hd : ∀ c ∈ ds, c.isDigit = true) :
    ∃ d rest, ds.reverse = d :: rest ∧ d.isDigit = true := by
  rcases hrev : ds.reverse with _ | ⟨d, rest⟩
  · exact absurd (List.reverse_eq_nil_iff.mp hrev) hne
  · refine ⟨d, rest, rfl, hd d (List.mem_reverse.mp ?_)⟩
    rw [hrev]
    exact List.mem_cons_self d rest

lemma endsWithL_digits_false (ds suf : List Char) (hne : ds ≠ [])
    (hd : ∀ c ∈ ds, c.isDigit = true) (c0 : Char) (p : List Char)
    (hsuf : suf.reverse = c0 :: p) (hc0 : c0.isDigit = false) :
    endsWithL ds suf = false := by
  unfold endsWithL
  rw [hsuf]
  exact isPrefixOf_nondigit_head _ _ _ hc0 (reverse_digits_head ds hne hd)

lemma replaceAll_append_digits (p r : List Char) (c0 : Char)
    (hph : p.head? = some c0) (hc0 : c0.isDigit = false) :
    ∀ (ds t : List Char), (∀ c ∈ ds, c.isDigit = true) →
      replaceAll p r (ds ++ t) = ds ++ replaceAll p r t := by
  intro ds
  induction ds with
  | nil => intro t _; rfl
  | cons a l ih =>
    intro t hd
    have ha : a.isDigit = true := hd a (List.mem_cons_self a l)
    rw [List.cons_append, replaceAll, dif_neg]
    · rw [ih t fun c hc => hd c (List.mem_cons_of_mem a hc)]
      rfl
    · rintro ⟨hpne, hpre⟩
      rcases p with _ | ⟨c, p'⟩
      · exact hpne rfl
      · have hc : c = c0 := by simpa using hph
        subst hc
        simp [List.isPrefixOf] at hpre
        rw [hpre.1, ha] at hc0
        cases hc0

lemma replaceAll_digits_id (p r : List Char) (c0 : Char)
    (hph : p.head? = some c0) (hc0 : c0.isDigit = false)
    (ds : List Char) (hd : ∀ c ∈ ds, c.isDigit = true) :
    replaceAll p r ds = ds := by
  have h := replaceAll_append_digits p r c0 hph hc0 ds [] hd
  have h0 : replaceAll p r ([] : List Char) = [] := by simp [replaceAll]
  rw [h0, List.append_nil] at h
  exact h

lemma validate_duration_clean (ds t : List Char) (hd : ∀ c ∈ ds, c.isDigit = true)
    (ht : ∀ c ∈ t, c.isWhitespace = false ∧ c.toLower = c) :
    validate_duration (String.mk (ds ++ t)) = validateCore (ds ++ t) := by
  unfold validate_duration
  congr 1
  have h1 : t.map Char.toLower = t := by
    rw [show t.map Char.toLower = t.map id from
      List.map_congr_left fun c hc => (ht c hc).2, List.map_id]
  show stripL ((ds ++ t).map Char.toLower) = ds ++ t
  rw [List.map_append, map_toLower_digits ds hd, h1]
  exact stripL_eq_self _ (no_ws_append ds t hd fun c hc => (ht c hc).1)

/-- C9 counterexample: `"-1"` matches none of the claim's numeric forms
(decimal digits plus optional unit suffix), yet `validate_duration` does not
reject it: the final branch is a bare `int(duration_str)`, which accepts
signed integers, so `"-1"` is silently coerced to `-1` minutes. -/
theorem c9_counterexample : validate_duration "-1" = some (-1) := by decide

/-- C9 amended: for every nonempty decimal-digit string, the hour suffixes
(`h`, `hour`, `hours`) yield the value times 60, the day suffixes (`d`, `day`,
`days`) the value times 1440, and the minute suffixes (`m`, `min`, `minute`,
`minutes`) or no suffix the value itself; but the no-match clause only holds
for strings whose numeric part fails `int()` (e.g. `"abc"`): a signed integer
such as `"-1"` is accepted and coerced rather than rejected. -/
theorem c9_validate_duration_spec :
    (∀ ds : List Char, ds ≠ [] → (∀ c ∈ ds, c.isDigit = true) →
      ∀ v : Int, pyInt ds = some v →
      validate_duration (String.mk (ds ++ "m".data)) = some v ∧
      validate_duration (String.mk (ds ++ "min".data)) = some v ∧
      validate_duration (String.mk (ds ++ "minute".data)) = some v ∧
      validate_duration (String.mk (ds ++ "minutes".data)) = some v ∧
      validate_duration (String.mk (ds ++ "h".data)) = some (v * 60) ∧
      validate_duration (String.mk (ds ++ "hour".data)) = some (v * 60) ∧
      validate_duration (String.mk (ds ++ "hours".data)) = some (v * 60) ∧
      validate_duration (String.mk (ds ++ "d".data)) = some (v * 24 * 60) ∧
      validate_duration (String.mk (ds ++ "day".data)) = some (v * 24 * 60) ∧
      validate_duration (String.mk (ds ++ "days".data)) = some (v * 24 * 60) ∧
      validate_duration (String.mk ds) = some v) ∧
    validate_duration "-1" = some (-1) ∧
    validate_duration "abc" = none := by
  refine ⟨?_, by decide, by decide⟩
  intro ds hne hd v hv
  refine ⟨?_, ?_, ?_, ?_, ?_, ?_, ?_, ?_, ?_, ?_, ?_⟩
  · rw [validate_duration_clean ds "m".data hd (by decide)]
    unfold validateCore
    rw [if_pos (by simp [endsWithL_append_self])]
    rw [firstToken_digits_append ds "m".data hne hd (by decide)]
    simp only [Option.some_bind]
    rw [replaceAll_append_digits "m".data [] 'm' (by decide) (by decide) ds "m".data hd,
      (by simp [replaceAll] : replaceAll "m".data [] "m".data = ([] : List Char)),
      List.append_nil,
      replaceAll_digits_id "in".data [] 'i' (by decide) (by decide) ds hd,
      replaceAll_digits_id "ute".data [] 'u' (by decide) (by decide) ds hd,
      replaceAll_digits_id "s".data [] 's' (by decide) (by decide) ds hd]
    exact hv
  · rw [validate_duration_clean ds "min".data hd (by decide)]
    unfold validateCore
    rw [if_pos (by simp [endsWithL_append_self])]
    rw [firstToken_digits_append ds "min".data hne hd (by decide)]
    simp only [Option.some_bind]
    rw [replaceAll_append_digits "m".data [] 'm' (by decide) (by decide) ds "min".data hd,
      (by simp [replaceAll] : replaceAll "m".data [] "min".data = ['i', 'n']),
      replaceAll_append_digits "in".data [] 'i' (by decide) (by decide) ds ['i', 'n'] hd,
      (by simp [replaceAll] : replaceAll "in".data [] ['i', 'n'] = ([] : List Char)),
      List.append_nil,
      replaceAll_digits_id "ute".data [] 'u' (by decide) (by decide) ds hd,
      replaceAll_digits_id "s".data [] 's' (by decide) (by decide) ds hd]
    exact hv
  · rw [validate_duration_clean ds "minute".data hd (by decide)]
    unfold validateCore
    rw [if_pos (by simp [endsWithL_append_self])]
    rw [firstToken_digits_append ds "minute".data hne hd (by decide)]
    simp only [Option.some_bind]
    rw [replaceAll_append_digits "m".data [] 'm' (by decide) (by decide) ds "minute".data hd,
      (by simp [replaceAll] : replaceAll "m".data [] "minute".data = ['i', 'n', 'u', 't', 'e']),
      replaceAll_append_digits "in".data [] 'i' (by decide) (by decide) ds
        ['i', 'n', 'u', 't', 'e'] hd,
      (by simp [replaceAll] : replaceAll "in".data [] ['i', 'n', 'u', 't', 'e'] = ['u', 't', 'e']),
      replaceAll_append_digits "ute".data [] 'u' (by decide) (by decide) ds ['u', 't', 'e'] hd,
      (by simp [replaceAll] : replaceAll "ute".data [] ['u', 't', 'e'] = ([] : List Char)),
      List.append_nil,
      replaceAll_digits_id "s".data [] 's' (by decide) (by decide) ds hd]
    exact hv
  · rw [validate_duration_clean ds "minutes".data hd (by decide)]
    unfold validateCore
    rw [if_pos (by simp [endsWithL_append_self])]
    rw [firstToken_digits_append ds "minutes".data hne hd (by decide)]
    simp only [Option.some_bind]
    rw [replaceAll_append_digits "m".data [] 'm' (by decide) (by decide) ds "minutes".data hd,
      (by simp [replaceAll] :
        replaceAll "m".data [] "minutes".data = ['i', 'n', 'u', 't', 'e', 's']),
      replaceAll_append_digits "in".data [] 'i' (by decide) (by decide) ds
        ['i', 'n', 'u', 't', 'e', 's'] hd,
      (by simp [replaceAll] :
        replaceAll "in".data [] ['i', 'n', 'u', 't', 'e', 's'] = ['u', 't', 'e', 's']),
      replaceAll_append_digits "ute".data [] 'u' (by decide) (by decide) ds
        ['u', 't', 'e', 's'] hd,
      (by simp [replaceAll] : replaceAll "ute".data [] ['u', 't', 'e', 's'] = ['s']),
      replaceAll_append_digits "s".data [] 's' (by decide) (by decide) ds ['s'] hd,
      (by simp [replaceAll] : replaceAll "s".data [] ['s'] = ([] : List Char)),
      List.append_nil]
    exact hv
  · rw [validate_duration_clean ds "h".data hd (by decide)]
    unfold validateCore
    have g1 : endsWithL (ds ++ "h".data) "m".data = false :=
      endsWithL_append_ne ds _ _ ['h'] ['m'] (by decide) (by decide)
        (by intro rest; simp [List.isPrefixOf])
    have g2 : endsWithL (ds ++ "h".data) "min".data = false :=
      endsWithL_append_ne ds _ _ ['h'] ['n', 'i', 'm'] (by decide) (by decide)
        (by intro rest; simp [List.isPrefixOf])
    have g3 : endsWithL (ds ++ "h".data) "minute".data = false :=
      endsWithL_append_ne ds _ _ ['h'] ['e', 't', 'u', 'n', 'i', 'm'] (by decide) (by decide)
        (by intro rest; simp [List.isPrefixOf])
    have g4 : endsWithL (ds ++ "h".data) "minutes".data = false :=
      endsWithL_append_ne ds _ _ ['h'] ['s', 'e', 't', 'u', 'n', 'i', 'm'] (by decide) (by decide)
        (by intro rest; simp [List.isPrefixOf])
    rw [if_neg (by simp [g1, g2, g3, g4])]
    rw [if_pos (by simp [endsWithL_append_self])]
    rw [firstToken_digits_append ds "h".data hne hd (by decide)]
    simp only [Option.some_bind]
    rw [replaceAll_append_digits "h".data [] 'h' (by decide) (by decide) ds "h".data hd,
      (by simp [replaceAll] : replaceAll "h".data [] "h".data = ([] : List Char)),
      List.append_nil,
      replaceAll_digits_id "our".data [] 'o' (by decide) (by decide) ds hd,
      replaceAll_digits_id "s".data [] 's' (by decide) (by decide) ds hd,
      hv]
    rfl
  · rw [validate_duration_clean ds "hour".data hd (by decide)]
    unfold validateCore
    have g1 : endsWithL (ds ++ "hour".data) "m".data = false :=
      endsWithL_append_ne ds _ _ ['r', 'u', 'o', 'h'] ['m'] (by decide) (by decide)
        (by intro rest; simp [List.isPrefixOf])
    have g2 : endsWithL (ds ++ "hour".data) "min".data = false :=
      endsWithL_append_ne ds _ _ ['r', 'u', 'o', 'h'] ['n', 'i', 'm'] (by decide) (by decide)
        (by intro rest; simp [List.isPrefixOf])
    have g3 : endsWithL (ds ++ "hour".data) "minute".data = false :=
      endsWithL_append_ne ds _ _ ['r', 'u', 'o', 'h'] ['e', 't', 'u', 'n', 'i', 'm']
        (by decide) (by decide) (by intro rest; simp [List.isPrefixOf])
    have g4 : endsWithL (ds ++ "hour".data) "minutes".data = false :=
      endsWithL_append_ne ds _ _ ['r', 'u', 'o', 'h'] ['s', 'e', 't', 'u', 'n', 'i', 'm']
        (by decide) (by decide) (by intro rest; simp [List.isPrefixOf])
    rw [if_neg (by simp [g1, g2, g3, g4])]
    rw [if_pos (by simp [endsWithL_append_self])]
    rw [firstToken_digits_append ds "hour".data hne hd (by decide)]
    simp only [Option.some_bind]
    rw [replaceAll_append_digits "h".data [] 'h' (by decide) (by decide) ds "hour".data hd,
      (by simp [replaceAll] : replaceAll "h".data [] "hour".data = ['o', 'u', 'r']),
      replaceAll_append_digits "our".data [] 'o' (by decide) (by decide) ds ['o', 'u', 'r'] hd,
      (by simp [replaceAll] : replaceAll "our".data [] ['o', 'u', 'r'] = ([] : List Char)),
      List.append_nil,
      replaceAll_digits_id "s".data [] 's' (by decide) (by decide) ds hd,
      hv]
    rfl
  · rw [validate_duration_clean ds "hours".data hd (by decide)]
    unfold validateCore
    have g1 : endsWithL (ds ++ "hours".data) "m".data = false :=
      endsWithL_append_ne ds _ _ ['s', 'r', 'u', 'o', 'h'] ['m'] (by decide) (by decide)
        (by intro rest; simp [List.isPrefixOf])
    have g2 : endsWithL (ds ++ "hours".data) "min".data = false :=
      endsWithL_append_ne ds _ _ ['s', 'r', 'u', 'o', 'h'] ['n', 'i', 'm']
        (by decide) (by decide) (by intro rest; simp [List.isPrefixOf])
    have g3 : endsWithL (ds ++ "hours".data) "minute".data = false :=
      endsWithL_append_ne ds _ _ ['s', 'r', 'u', 'o', 'h'] ['e', 't', 'u', 'n', 'i', 'm']
        (by decide) (by decide) (by intro rest; simp [List.isPrefixOf])
    have g4 : endsWithL (ds ++ "hours".data) "minutes".data = false :=
      endsWithL_append_ne ds _ _ ['s', 'r', 'u', 'o', 'h'] ['s', 'e', 't', 'u', 'n', 'i', 'm']
        (by decide) (by decide) (by intro rest; simp [List.isPrefixOf])
    rw [if_neg (by simp [g1, g2, g3, g4])]
    rw [if_pos (by simp [endsWithL_append_self])]
    rw [firstToken_digits_append ds "hours".data hne hd (by decide)]
    simp only [Option.some_bind]
    rw [replaceAll_append_digits "h".data [] 'h' (by decide) (by decide) ds "hours".data hd,
      (by simp [replaceAll] : replaceAll "h".data [] "hours".data = ['o', 'u', 'r', 's']),
      replaceAll_append_digits "our".data [] 'o' (by decide) (by decide) ds
        ['o', 'u', 'r', 's'] hd,
      (by simp [replaceAll] : replaceAll "our".data [] ['o', 'u', 'r', 's'] = ['s']),
      replaceAll_append_digits "s".data [] 's' (by decide) (by decide) ds ['s'] hd,
      (by simp [replaceAll] : replaceAll "s".data [] ['s'] = ([] : List Char)),
      List.append_nil,
      hv]
    rfl
  · rw [validate_duration_clean ds "d".data hd (by decide)]
    unfold validateCore
    have g1 : endsWithL (ds ++ "d".data) "m".data = false :=
      endsWithL_append_ne ds _ _ ['d'] ['m'] (by decide) (by decide)
        (by intro rest; simp [List.isPrefixOf])
    have g2 : endsWithL (ds ++ "d".data) "min".data = false :=
      endsWithL_append_ne ds _ _ ['d'] ['n', 'i', 'm'] (by decide) (by decide)
        (by intro rest; simp [List.isPrefixOf])
    have g3 : endsWithL (ds ++ "d".data) "minute".data = false :=
      endsWithL_append_ne ds _ _ ['d'] ['e', 't', 'u', 'n', 'i', 'm'] (by decide) (by decide)
        (by intro rest; simp [List.isPrefixOf])
    have g4 : endsWithL (ds ++ "d".data) "minutes".data = false :=
      endsWithL_append_ne ds _ _ ['d'] ['s', 'e', 't', 'u', 'n', 'i', 'm'] (by decide) (by decide)
        (by intro rest; simp [List.isPrefixOf])
    have g5 : endsWithL (ds ++ "d".data) "h".data = false :=
      endsWithL_append_ne ds _ _ ['d'] ['h'] (by decide) (by decide)
        (by intro rest; simp [List.isPrefixOf])
    have g6 : endsWithL (ds ++ "d".data) "hour".data = false :=
      endsWithL_append_ne ds _ _ ['d'] ['r', 'u', 'o', 'h'] (by decide) (by decide)
        (by intro rest; simp [List.isPrefixOf])
    have g7 : endsWithL (ds ++ "d".data) "hours".data = false :=
      endsWithL_append_ne ds _ _ ['d'] ['s', 'r', 'u', 'o', 'h'] (by decide) (by decide)
        (by intro rest; simp [List.isPrefixOf])
    rw [if_neg (by simp [g1, g2, g3, g4]), if_neg (by simp [g5, g6, g7])]
    rw [if_pos (by simp [endsWithL_append_self])]
    rw [firstToken_digits_append ds "d".data hne hd (by decide)]
    simp only [Option.some_bind]
    rw [replaceAll_append_digits "d".data [] 'd' (by decide) (by decide) ds "d".data hd,
      (by simp [replaceAll] : replaceAll "d".data [] "d".data = ([] : List Char)),
      List.append_nil,
      replaceAll_digits_id "ay".data [] 'a' (by decide) (by decide) ds hd,
      replaceAll_digits_id "s".data [] 's' (by decide) (by decide) ds hd,
      hv]
    rfl
  · rw [validate_duration_clean ds "day".data hd (by decide)]
    unfold validateCore
    have g1 : endsWithL (ds ++ "day".data) "m".data = false :=
      endsWithL_append_ne ds _ _ ['y', 'a', 'd'] ['m'] (by decide) (by decide)
        (by intro rest; simp [List.isPrefixOf])
    have g2 : endsWithL (ds ++ "day".data) "min".data = false :=
      endsWithL_append_ne ds _ _ ['y', 'a', 'd'] ['n', 'i', 'm'] (by decide) (by decide)
        (by intro rest; simp [List.isPrefixOf])
    have g3 : endsWithL (ds ++ "day".data) "minute".data = false :=
      endsWithL_append_ne ds _ _ ['y', 'a', 'd'] ['e', 't', 'u', 'n', 'i', 'm']
        (by decide) (by decide) (by intro rest; simp [List.isPrefixOf])
    have g4 : endsWithL (ds ++ "day".data) "minutes".data = false :=
      endsWithL_append_ne ds _ _ ['y', 'a', 'd'] ['s', 'e', 't', 'u', 'n', 'i', 'm']
        (by decide) (by decide) (by intro rest; simp [List.isPrefixOf])
    have g5 : endsWithL (ds ++ "day".data) "h".data = false :=
      endsWithL_append_ne ds _ _ ['y', 'a', 'd'] ['h'] (by decide) (by decide)
        (by intro rest; simp [List.isPrefixOf])
    have g6 : endsWithL (ds ++ "day".data) "hour".data = false :=
      endsWithL_append_ne ds _ _ ['y', 'a', 'd'] ['r', 'u', 'o', 'h'] (by decide) (by decide)
        (by intro rest; simp [List.isPrefixOf])
    have g7 : endsWithL (ds ++ "day".data) "hours".data = false :=
      endsWithL_append_ne ds _ _ ['y', 'a', 'd'] ['s', 'r', 'u', 'o', 'h'] (by decide) (by decide)
        (by intro rest; simp [List.isPrefixOf])
    rw [if_neg (by simp [g1, g2, g3, g4]), if_neg (by simp [g5, g6, g7])]
    rw [if_pos (by simp [endsWithL_append_self])]
    rw [firstToken_digits_append ds "day".data hne hd (by decide)]
    simp only [Option.some_bind]
    rw [replaceAll_append_digits "d".data [] 'd' (by decide) (by decide) ds "day".data hd,
      (by simp [replaceAll] : replaceAll "d".data [] "day".data = ['a', 'y']),
      replaceAll_append_digits "ay".data [] 'a' (by decide) (by decide) ds ['a', 'y'] hd,
      (by simp [replaceAll] : replaceAll "ay".data [] ['a', 'y'] = ([] : List Char)),
      List.append_nil,
      replaceAll_digits_id "s".data [] 's' (by decide) (by decide) ds hd,
      hv]
    rfl
  · rw [validate_duration_clean ds "days".data hd (by decide)]
    unfold validateCore
    have g1 : endsWithL (ds ++ "days".data) "m".data = false :=
      endsWithL_append_ne ds _ _ ['s', 'y', 'a', 'd'] ['m'] (by decide) (by decide)
        (by intro rest; simp [List.isPrefixOf])
    have g2 : endsWithL (ds ++ "days".data) "min".data = false :=
      endsWithL_append_ne ds _ _ ['s', 'y', 'a', 'd'] ['n', 'i', 'm'] (by decide) (by decide)
        (by intro rest; simp [List.isPrefixOf])
    have g3 : endsWithL (ds ++ "days".data) "minute".data = false :=
      endsWithL_append_ne ds _ _ ['s', 'y', 'a', 'd'] ['e', 't', 'u', 'n', 'i', 'm']
        (by decide) (by decide) (by intro rest; simp [List.isPrefixOf])
    have g4 : endsWithL (ds ++ "days".data) "minutes".data = false :=
      endsWithL_append_ne ds _ _ ['s', 'y', 'a', 'd'] ['s', 'e', 't', 'u', 'n', 'i', 'm']
        (by decide) (by decide) (by intro rest; simp [List.isPrefixOf])
    have g5 : endsWithL (ds ++ "days".data) "h".data = false :=
      endsWithL_append_ne ds _ _ ['s', 'y', 'a', 'd'] ['h'] (by decide) (by decide)
        (by intro rest; simp [List.isPrefixOf])
    have g6 : endsWithL (ds ++ "days".data) "hour".data = false :=
      endsWithL_append_ne ds _ _ ['s', 'y', 'a', 'd'] ['r', 'u', 'o', 'h']
        (by decide) (by decide) (by intro rest; simp [List.isPrefixOf])
    have g7 : endsWithL (ds ++ "days".data) "hours".data = false :=
      endsWithL_append_ne ds _ _ ['s', 'y', 'a', 'd'] ['s', 'r', 'u', 'o', 'h']
        (by decide) (by decide) (by intro rest; simp [List.isPrefixOf])
    rw [if_neg (by simp [g1, g2, g3, g4]), if_neg (by simp [g5, g6, g7])]
    rw [if_pos (by simp [endsWithL_append_self])]
    rw [firstToken_digits_append ds "days".data hne hd (by decide)]
    simp only [Option.some_bind]
    rw [replaceAll_append_digits "d".data [] 'd' (by decide) (by decide) ds "days".data hd,
      (by simp [replaceAll] : replaceAll "d".data [] "days".data = ['a', 'y', 's']),
      replaceAll_append_digits "ay".data [] 'a' (by decide) (by decide) ds ['a', 'y', 's'] hd,
      (by simp [replaceAll] : replaceAll "ay".data [] ['a', 'y', 's'] = ['s']),
      replaceAll_append_digits "s".data [] 's' (by decide) (by decide) ds ['s'] hd,
      (by simp [replaceAll] : replaceAll "s".data [] ['s'] = ([] : List Char)),
      List.append_nil,
      hv]
    rfl
  · have hc := validate_duration_clean ds [] hd (by decide)
    rw [List.append_nil] at hc
    rw [hc]
    unfold validateCore
    have b1 : endsWithL ds "m".data = false :=
      endsWithL_digits_false ds _ hne hd 'm' [] (by decide) (by decide)
    have b2 : endsWithL ds "min".data = false :=
      endsWithL_digits_false ds _ hne hd 'n' ['i', 'm'] (by decide) (by decide)
    have b3 : endsWithL ds "minute".data = false :=
      endsWithL_digits_false ds _ hne hd 'e' ['t', 'u', 'n', 'i', 'm'] (by decide) (by decide)
    have b4 : endsWithL ds "minutes".data = false :=
      endsWithL_digits_false ds _ hne hd 's' ['e', 't', 'u', 'n', 'i', 'm'] (by decide) (by decide)
    have b5 : endsWithL ds "h".data = false :=
      endsWithL_digits_false ds _ hne hd 'h' [] (by decide) (by decide)
    have b6 : endsWithL ds "hour".data = false :=
      endsWithL_digits_false ds _ hne hd 'r' ['u', 'o', 'h'] (by decide) (by decide)
    have b7 : endsWithL ds "hours".data = false :=
      endsWithL_digits_false ds _ hne hd 's' ['r', 'u', 'o', 'h'] (by decide) (by decide)
    have b8 : endsWithL ds "d".data = false :=
      endsWithL_digits_false ds _ hne hd 'd' [] (by decide) (by decide)
    have b9 : endsWithL ds "day".data = false :=
      endsWithL_digits_false ds _ hne hd 'y' ['a', 'd'] (by decide) (by decide)
    have b10 : endsWithL ds "days".data = false :=
      endsWithL_digits_false ds _ hne hd 's' ['y', 'a', 'd'] (by decide) (by decide)
    rw [if_neg (by simp [b1, b2, b3, b4]), if_neg (by simp [b5, b6, b7]),
      if_neg (by simp [b8, b9, b10])]
    exact hv

/-- Witness for the amended C9: `"5h"` yields 300 minutes, bare `"5"` yields
5, via the theorem at the digit string `['5']`. -/
theorem c9_witness :
    validate_duration "5h" = some 300 ∧ validate_duration "5" = some 5 := by
  have h := c9_validate_duration_spec.1 ['5'] (by decide) (by decide) 5 (by decide)
  exact ⟨h.2.2.2.2.1, h.2.2.2.2.2.2.2.2.2.2⟩
